import Mathlib

/-!
Verification of the `realtime_agent` package (session broker, event bus,
questionnaire model) against its natural-language specification.

The Python sources are shallowly embedded: pure methods become Lean
functions, stateful methods become explicit state passing, `raise`
becomes `Except`, and the bounded-recursion visibility evaluator is
given an explicit fuel argument (fuel exhaustion models non-termination
of the unbounded recursion).
-/

namespace RealtimeAgent

/-- Embedding of the Python values that flow through questionnaire answers,
session state and wire messages: `None`, booleans, integers, strings,
lists and string-keyed dicts. -/
inductive Value where
  | vnull
  | vbool (b : Bool)
  | vint (n : Int)
  | vstr (s : String)
  | vlist (xs : List Value)
  | vdict (kvs : List (String × Value))

/-- Models Python `str.casefold` (the two sides of every comparison in the
source go through the same function; on ASCII input casefold is
lowercasing).  Implemented over the character list so that concrete
instances evaluate. -/
def casefold (s : String) : String := String.mk (s.data.map Char.toLower)

/-- Embedding of `QuestionnaireQuestion` (questionnaire.py, lines 42-136).
`value = Value.vnull` models Python `value is None`. -/
structure QuestionnaireQuestion where
  question_id : String
  question_text : String
  question_type : String := "text"
  question_options : List String := []
  skippable : Bool := true
  value : Value := Value.vnull
  skipped : Bool := false

/-- Models `self._option_lookup.get(value.casefold())`: the lookup dict maps
`option.casefold()` to `option`, and `__post_init__` rejects options with
duplicate casefolded forms, so the dict lookup is the first (unique) match. -/
def optionLookup (opts : List String) (s : String) : Option String :=
  opts.find? (fun o => casefold o == casefold s)

/-- Python `==` between an arbitrary value and a string: only equal strings
compare equal (no built-in non-string value equals a `str`).  This is the
comparison performed element-wise by `canonical_value in self.question_options`. -/
def valueEqString (v : Value) (o : String) : Bool :=
  match v with
  | Value.vstr s => s == o
  | _ => false

/-- The option validation performed by `QuestionnaireQuestion.__post_init__`:
options are non-empty strings with no case-insensitive duplicates. -/
def ValidOptions (opts : List String) : Prop :=
  (∀ o ∈ opts, o ≠ "") ∧ (opts.map casefold).Nodup

/-- Embedding of `QuestionnaireQuestion.set_value` (questionnaire.py,
lines 99-112).  Python mutates the question in place and raises
`ValueError` on a non-matching value; here the error leaves the input
unchanged and the success case returns the updated record. -/
def QuestionnaireQuestion.set_value (q : QuestionnaireQuestion) (v : Value) :
    Except String QuestionnaireQuestion :=
  if q.question_options.isEmpty then
    Except.ok { q with value := v, skipped := false }
  else
    let canonical : Value :=
      match v with
      | Value.vstr s =>
        match optionLookup q.question_options s with
        | some matched => Value.vstr matched
        | none => v
      | _ => v
    if q.question_options.any (fun o => valueEqString canonical o) then
      Except.ok { q with value := canonical, skipped := false }
    else
      Except.error "invalid-argument"

/-- Embedding of `QuestionnaireQuestion.clear_value` (lines 114-116). -/
def QuestionnaireQuestion.clear_value (q : QuestionnaireQuestion) :
    QuestionnaireQuestion :=
  { q with value := Value.vnull, skipped := false }

/-- Embedding of `QuestionnaireQuestion.skip` (lines 118-122): skipping a
non-skippable question raises; otherwise the value is reset to null and
the skipped flag is set. -/
def QuestionnaireQuestion.skip (q : QuestionnaireQuestion) :
    Except String QuestionnaireQuestion :=
  if !q.skippable then
    Except.error "Cannot skip a non-skippable question"
  else
    Except.ok { q with value := Value.vnull, skipped := true }

/-- Embedding of `QuestionnaireQuestion.unskip` (lines 124-125): only the
skipped flag is cleared; the value is untouched. -/
def QuestionnaireQuestion.unskip (q : QuestionnaireQuestion) :
    QuestionnaireQuestion :=
  { q with skipped := false }

/-- Modelled from the spec: the `spelling_sensitive=true` value setter.
The flag appears in spec sections 3 and 4.3.2 and in the repository's
test suites, but the `QuestionnaireQuestion` dataclass in
`src/realtime_agent/questionnaire.py` has no `spelling_sensitive` field
or branch, so the behaviour is modelled from the spec's words: the value
must be a sequence of single-character strings, the stored value is their
concatenation, and any other input (including a plain string) is
rejected. -/
def QuestionnaireQuestion.set_value_spelling_sensitive
    (q : QuestionnaireQuestion) (v : Value) :
    Except String QuestionnaireQuestion :=
  match v with
  | Value.vlist items =>
    if items.all (fun i =>
        match i with
        | Value.vstr c => c.length == 1
        | _ => false) then
      Except.ok { q with
        value := Value.vstr (String.join (items.filterMap (fun i =>
          match i with
          | Value.vstr c => some c
          | _ => none))),
        skipped := false }
    else
      Except.error "invalid-argument"
  | _ => Except.error "invalid-argument"

/-- Embedding of the normalised condition trees produced by
`_normalise_condition` (questionnaire.py, lines 484-537): operators are
stored uppercase and each node carries exactly the fields listed in the
spec table. -/
inductive Condition where
  | cand (cs : List Condition)
  | cor (cs : List Condition)
  | cnot (c : Condition)
  | visible (section_id : String)
  | completed (section_id : String)
  | always (value : Bool)

/-- Models Python `value is None` on a stored answer. -/
def Value.isNull : Value → Bool
  | Value.vnull => true
  | _ => false

/-- Embedding of `QuestionnaireSection` (questionnaire.py, lines 139-214). -/
structure QuestionnaireSection where
  section_id : String
  section_name : String
  section_description : Option String := none
  condition : Option Condition := none
  questions : List QuestionnaireQuestion := []

/-- Embedding of `QuestionnaireSection.is_completed` (lines 192-200): a
section with no questions is never completed; otherwise every non-skipped
question must have a non-null value. -/
def QuestionnaireSection.is_completed (s : QuestionnaireSection) : Bool :=
  if s.questions.isEmpty then false
  else s.questions.all (fun q => q.skipped || !q.value.isNull)

/-- Embedding of `DEFAULT_QUESTIONNAIRE_PROMPT` (questionnaire.py, lines 29-31). -/
def DEFAULT_QUESTIONNAIRE_PROMPT : String :=
  "Please provide the requested information so we can personalise your experience."

/-- Embedding of `Questionnaire` (questionnaire.py, lines 217-481).
`schema` is an arbitrary JSON-serialisable value. -/
structure Questionnaire where
  template : Option String := none
  schema : Option Value := none
  fallback_prompt : String := DEFAULT_QUESTIONNAIRE_PROMPT
  sections : List QuestionnaireSection := []

/-- Embedding of `Questionnaire._get_section_by_id` (lines 407-411);
`none` corresponds to the `ValueError` raised on a missing section. -/
def Questionnaire.get_section_by_id (Q : Questionnaire) (section_id : String) :
    Option QuestionnaireSection :=
  Q.sections.find? (fun s => s.section_id == section_id)

/-- The memo threaded through one `get_visible_sections` call
(`visibility_cache` in the source). -/
abbrev VisCache := List (String × Bool)

/-- The resolver callback type threaded through `_evaluate_condition`
(the Python source passes the inner `resolve` closure as the `resolver`
argument).  It receives the current memo and the referenced section. -/
abbrev SectionResolver :=
  VisCache → QuestionnaireSection → Option (Except String (Bool × VisCache))

mutual

/-- Embedding of `Questionnaire._evaluate_condition` (questionnaire.py,
lines 427-481) for normalised condition trees, parameterised — as in the
source — by the `resolver` callback used for `VISIBLE` references.
`Except.error` models the `ValueError` raised when a referenced section
does not exist; `none` bubbles up fuel exhaustion from the resolver. -/
def evalConditionWith (Q : Questionnaire) (resolver : SectionResolver) :
    VisCache → Condition → Option (Except String (Bool × VisCache))
  | cache, Condition.cand cs =>
    match evalConditionListWith Q resolver cache cs with
    | none => none
    | some (Except.error e) => some (Except.error e)
    | some (Except.ok (bs, cache')) =>
      some (Except.ok (if bs.isEmpty then false else bs.all id, cache'))
  | cache, Condition.cor cs =>
    match evalConditionListWith Q resolver cache cs with
    | none => none
    | some (Except.error e) => some (Except.error e)
    | some (Except.ok (bs, cache')) =>
      some (Except.ok (if bs.isEmpty then false else bs.any id, cache'))
  | cache, Condition.cnot c' =>
    match evalConditionWith Q resolver cache c' with
    | none => none
    | some (Except.error e) => some (Except.error e)
    | some (Except.ok (b, cache')) => some (Except.ok (!b, cache'))
  | cache, Condition.visible sid =>
    match Q.get_section_by_id sid with
    | none => some (Except.error "invalid-argument")
    | some s => resolver cache s
  | cache, Condition.completed sid =>
    match Q.get_section_by_id sid with
    | none => some (Except.error "invalid-argument")
    | some s => some (Except.ok (s.is_completed, cache))
  | cache, Condition.always b => some (Except.ok (b, cache))

/-- The list comprehension inside the `AND`/`OR` branch of
`_evaluate_condition`: every sub-condition is evaluated (no
short-circuiting), threading the cache left to right. -/
def evalConditionListWith (Q : Questionnaire) (resolver : SectionResolver) :
    VisCache → List Condition → Option (Except String (List Bool × VisCache))
  | cache, [] => some (Except.ok ([], cache))
  | cache, c :: rest =>
    match evalConditionWith Q resolver cache c with
    | none => none
    | some (Except.error e) => some (Except.error e)
    | some (Except.ok (b, cache')) =>
      match evalConditionListWith Q resolver cache' rest with
      | none => none
      | some (Except.error e) => some (Except.error e)
      | some (Except.ok (bs, cache'')) => some (Except.ok (b :: bs, cache''))

end

/-- Embedding of the inner `resolve` closure of
`Questionnaire.get_visible_sections` (questionnaire.py, lines 331-350):
consult the cache, return `false` on re-entry (the section id is on the
in-progress stack), otherwise evaluate the section's condition — passing
`resolve` itself as the resolver, with this section's id pushed onto the
in-progress stack — then cache and return the result.  The explicit
`fuel` bounds the recursion depth; `none` models a recursion that would
not terminate. -/
def resolveSection (Q : Questionnaire) : Nat → VisCache → List String →
    QuestionnaireSection → Option (Except String (Bool × VisCache))
  | fuel, cache, stack, s =>
    match cache.lookup s.section_id with
    | some b => some (Except.ok (b, cache))
    | none =>
      if s.section_id ∈ stack then
        some (Except.ok (false, cache))
      else
        match fuel with
        | 0 => none
        | fuel' + 1 =>
          match s.condition with
          | none => some (Except.ok (true, (s.section_id, true) :: cache))
          | some c =>
            match evalConditionWith Q
                (fun cache' sec =>
                  resolveSection Q fuel' cache' (s.section_id :: stack) sec)
                cache c with
            | none => none
            | some (Except.error e) => some (Except.error e)
            | some (Except.ok (b, cache')) =>
              some (Except.ok (b, (s.section_id, b) :: cache'))

/-- The loop over `self._sections` in `get_visible_sections`
(questionnaire.py, lines 352-356), threading the shared memo. -/
def visibleLoop (Q : Questionnaire) (fuel : Nat) (cache : VisCache) :
    List QuestionnaireSection →
    Option (Except String (List QuestionnaireSection × VisCache))
  | [] => some (Except.ok ([], cache))
  | s :: rest =>
    match resolveSection Q fuel cache [] s with
    | none => none
    | some (Except.error e) => some (Except.error e)
    | some (Except.ok (b, cache')) =>
      match visibleLoop Q fuel cache' rest with
      | none => none
      | some (Except.error e) => some (Except.error e)
      | some (Except.ok (vis, cache'')) =>
        some (Except.ok (if b then s :: vis else vis, cache''))

/-- Embedding of `Questionnaire.get_visible_sections` (questionnaire.py,
lines 327-356): start with an empty memo and an empty in-progress stack
and keep the sections that resolve to visible, in order. -/
def Questionnaire.get_visible_sections (Q : Questionnaire) (fuel : Nat) :
    Option (Except String (List QuestionnaireSection)) :=
  match visibleLoop Q fuel [] Q.sections with
  | none => none
  | some (Except.error e) => some (Except.error e)
  | some (Except.ok (vis, _)) => some (Except.ok vis)

mutual

/-- Models `json.dumps(payload, sort_keys=True)` for values whose strings
need no JSON escaping: default separators, dict keys serialised in sorted
order.  Dict keys are unique, so sorting the entries after serialising
each one yields the same string as serialising in sorted key order. -/
def jsonDumpSorted : Value → String
  | Value.vnull => "null"
  | Value.vbool true => "true"
  | Value.vbool false => "false"
  | Value.vint n => toString n
  | Value.vstr s => "\"" ++ s ++ "\""
  | Value.vlist xs => "[" ++ String.intercalate ", " (jsonDumpList xs) ++ "]"
  | Value.vdict kvs =>
    "\x7b" ++ String.intercalate ", "
      (((jsonDumpKV kvs).insertionSort (fun a b => a.1 ≤ b.1)).map
        (fun kv => "\"" ++ kv.1 ++ "\": " ++ kv.2)) ++ "\x7d"
termination_by v => (sizeOf v, 0)

def jsonDumpList : List Value → List String
  | [] => []
  | v :: vs => jsonDumpSorted v :: jsonDumpList vs
termination_by vs => (sizeOf vs, 1)

def jsonDumpKV : List (String × Value) → List (String × String)
  | [] => []
  | (k, v) :: kvs => (k, jsonDumpSorted v) :: jsonDumpKV kvs
termination_by kvs => (sizeOf kvs, 1)

end

/-- Embedding of `QuestionnaireQuestion.to_mapping` (questionnaire.py,
lines 127-136). -/
def QuestionnaireQuestion.to_mapping (q : QuestionnaireQuestion) : Value :=
  Value.vdict
    [("question_id", Value.vstr q.question_id),
     ("question_text", Value.vstr q.question_text),
     ("question_type", Value.vstr q.question_type),
     ("question_options", Value.vlist (q.question_options.map Value.vstr)),
     ("skippable", Value.vbool q.skippable),
     ("value", q.value),
     ("skipped", Value.vbool q.skipped)]

mutual

/-- The mapping form of a normalised condition, as stored by
`_normalise_condition` and returned by `to_condition_mapping`. -/
def Condition.to_mapping : Condition → Value
  | Condition.cand cs =>
    Value.vdict [("operator", Value.vstr "AND"),
                 ("conditions", Value.vlist (Condition.to_mapping_list cs))]
  | Condition.cor cs =>
    Value.vdict [("operator", Value.vstr "OR"),
                 ("conditions", Value.vlist (Condition.to_mapping_list cs))]
  | Condition.cnot c =>
    Value.vdict [("operator", Value.vstr "NOT"),
                 ("condition", Condition.to_mapping c)]
  | Condition.visible sid =>
    Value.vdict [("operator", Value.vstr "VISIBLE"),
                 ("section_id", Value.vstr sid)]
  | Condition.completed sid =>
    Value.vdict [("operator", Value.vstr "COMPLETED"),
                 ("section_id", Value.vstr sid)]
  | Condition.always b =>
    Value.vdict [("operator", Value.vstr "ALWAYS"), ("value", Value.vbool b)]
termination_by c => (sizeOf c, 0)

def Condition.to_mapping_list : List Condition → List Value
  | [] => []
  | c :: cs => Condition.to_mapping c :: Condition.to_mapping_list cs
termination_by cs => (sizeOf cs, 1)

end

/-- Embedding of `QuestionnaireSection.to_mapping` (questionnaire.py,
lines 207-214). -/
def QuestionnaireSection.to_mapping (s : QuestionnaireSection) : Value :=
  Value.vdict
    [("section_id", Value.vstr s.section_id),
     ("section_name", Value.vstr s.section_name),
     ("section_description",
       match s.section_description with
       | some d => Value.vstr d
       | none => Value.vnull),
     ("questions", Value.vlist (s.questions.map QuestionnaireQuestion.to_mapping)),
     ("condition",
       match s.condition with
       | some c => Condition.to_mapping c
       | none => Value.vnull)]

/-- Embedding of `Questionnaire._questionnaire_payload` (questionnaire.py,
lines 396-405). -/
def Questionnaire.questionnaire_payload (Q : Questionnaire) : Option Value :=
  match Q.schema with
  | some s => some s
  | none =>
    if Q.sections.isEmpty then none
    else some (Value.vdict
      [("sections", Value.vlist (Q.sections.map QuestionnaireSection.to_mapping))])

/-- Python `repr` for the value universe (single-quoted strings); only used
through `pyStr` below. -/
def pyRepr : Value → String
  | Value.vnull => "None"
  | Value.vbool true => "True"
  | Value.vbool false => "False"
  | Value.vint n => toString n
  | Value.vstr s => "\x27" ++ s ++ "\x27"
  | Value.vlist xs => "[" ++ String.intercalate ", " (jsonDumpList xs) ++ "]"
  | Value.vdict kvs =>
    "\x7b" ++ String.intercalate ", "
      ((jsonDumpKV kvs).map (fun kv => "\"" ++ kv.1 ++ "\": " ++ kv.2)) ++ "\x7d"

/-- Python `str` applied to a value interpolated by an f-string. -/
def pyStr : Value → String
  | Value.vstr s => s
  | v => pyRepr v

/-- Models Python `str.strip()` (no arguments): remove leading and
trailing whitespace.  Implemented by structural recursion over the
character list so that concrete instances evaluate. -/
def pyStrip (s : String) : String :=
  String.mk (((s.data.dropWhile Char.isWhitespace).reverse.dropWhile
    Char.isWhitespace).reverse)

/-- Embedding of `Questionnaire.render` (questionnaire.py, lines 358-394).
The Jinja template engine is external to the repository, so the rendering
step is a parameter `renderTemplate` receiving the template source, the
state snapshot and the questionnaire payload, exactly the variables the
source passes to `Template(...).render`. -/
def Questionnaire.render (Q : Questionnaire)
    (renderTemplate : String → List (String × Value) → Option Value → String)
    (state : List (String × Value)) : Option String :=
  let payload := Q.questionnaire_payload
  match Q.template with
  | some t =>
    if pyStrip t = "" then none
    else
      let rendered := pyStrip (renderTemplate t state payload)
      if rendered = "" then none else some rendered
  | none =>
    match payload with
    | some p => some (jsonDumpSorted p)
    | none =>
      let prompt := pyStrip Q.fallback_prompt
      if prompt = "" then none
      else
        let agent_name := (state.lookup "agent_name").getD (Value.vstr "our team")
        let branch_name := (state.lookup "branch_name").getD (Value.vstr "our branch")
        some (prompt ++ " Agent: " ++ pyStr agent_name ++ ", Branch: "
          ++ pyStr branch_name ++ ".")

/-! ## Session event bus and state (session.py) -/

/-- Embedding of `_HandlerRecord` (session.py, lines 145-149).  Callbacks
are identified by an opaque `Nat` (Python compares them by identity).
`idx` is a ghost insertion counter making the source's implicit insertion
order explicit; it plays no role in the operational definitions other
than being assigned increasing values. -/
structure HandlerRecord where
  callback : Nat
  once : Bool
  priority : Int
  idx : Nat
  deriving Repr, DecidableEq

/-- Embedding of `EventHandlerError` (session.py, lines 109-127): wraps the
event name, the failing callback and the original exception (its message). -/
structure EventHandlerError where
  event : String
  callback : Nat
  original : String
  deriving Repr, DecidableEq

/-- The session-level exceptions raised by session.py.  Human-readable
message formatting is kept where it is a plain string; the
`ExceptionGroup` message built by f-string interpolation is elided. -/
inductive SessionExc where
  | sessionClosed (msg : String)
  | sessionError (msg : String)
  | typeError (msg : String)
  | keyError (key : String)
  | exceptionGroup (errors : List EventHandlerError)
  deriving Repr, DecidableEq

/-- Update an association list at a key (Python dict item assignment). -/
def setAssoc {β : Type} (m : List (String × β)) (k : String) (v : β) :
    List (String × β) :=
  match m with
  | [] => [(k, v)]
  | (k', v') :: rest =>
    if k' = k then (k, v) :: rest else (k', v') :: setAssoc rest k v

/-- Remove a key from an association list (Python dict `pop`/`del`). -/
def removeAssoc {β : Type} (m : List (String × β)) (k : String) :
    List (String × β) :=
  match m with
  | [] => []
  | (k', v') :: rest =>
    if k' = k then rest else (k', v') :: removeAssoc rest k

/-- The portion of `Session` state relevant to the event bus, the mapping
helpers and the closed flag (session.py, lines 198-250).  `nextIdx` is the
ghost insertion counter for `HandlerRecord.idx`. -/
structure SessionModel where
  closed : Bool := false
  handlers : List (String × List HandlerRecord) := []
  waiters : List String := []
  state : List (String × Value) := []
  nextIdx : Nat := 0

/-- Embedding of `Session._ensure_open` (session.py, lines 498-500). -/
def SessionModel.ensure_open (s : SessionModel) : Except SessionExc Unit :=
  if s.closed then Except.error (SessionExc.sessionClosed "Session is closed")
  else Except.ok ()

/-- The priority comparison used by `self._handlers[event].sort(key=lambda
item: item.priority, reverse=True)`: descending by priority. -/
def priorityGE (a b : HandlerRecord) : Prop := b.priority ≤ a.priority

instance : DecidableRel priorityGE := fun a b => by
  unfold priorityGE; infer_instance

/-- Embedding of `Session._register` (session.py, lines 478-493): reject on
a closed session, append the new record and stable-sort by priority
descending.  Python's `list.sort` is a stable sort, modelled here by
`List.insertionSort` (stable for the same preorder).  The non-callable
check is outside the model: callbacks are already abstract identifiers. -/
def SessionModel.register (s : SessionModel) (event : String) (cb : Nat)
    (priority : Int) (once : Bool) : Except SessionExc SessionModel :=
  if s.closed then Except.error (SessionExc.sessionClosed "Session is closed")
  else
    let record : HandlerRecord :=
      { callback := cb, once := once, priority := priority, idx := s.nextIdx }
    let current := ((s.handlers.lookup event).getD []) ++ [record]
    Except.ok { s with
      handlers := setAssoc s.handlers event (current.insertionSort priorityGE),
      nextIdx := s.nextIdx + 1 }

/-- Embedding of `Session.on` (session.py, lines 382-383). -/
def SessionModel.on (s : SessionModel) (event : String) (cb : Nat)
    (priority : Int := 0) : Except SessionExc SessionModel :=
  s.register event cb priority false

/-- Embedding of `Session.once` (session.py, lines 385-386). -/
def SessionModel.once (s : SessionModel) (event : String) (cb : Nat)
    (priority : Int := 0) : Except SessionExc SessionModel :=
  s.register event cb priority true

/-- Embedding of `Session.off` (session.py, lines 388-409).  Note: the
source performs no `_ensure_open` check here; `off` never raises on a
closed session.  Returns the updated session and the removed count. -/
def SessionModel.off (s : SessionModel) (event : String)
    (cb : Option Nat) : SessionModel × Nat :=
  match s.handlers.lookup event with
  | none => (s, 0)
  | some hs =>
    if hs.isEmpty then (s, 0)
    else
      match cb with
      | none => ({ s with handlers := removeAssoc s.handlers event }, hs.length)
      | some c =>
        let remaining := hs.filter (fun r => r.callback ≠ c)
        let removed := hs.length - remaining.length
        if remaining.isEmpty then
          ({ s with handlers := removeAssoc s.handlers event }, removed)
        else
          ({ s with handlers := setAssoc s.handlers event remaining }, removed)

/-- Embedding of `Session.close` (session.py, lines 354-370) restricted to
the modelled fields: set the closed flag, fail pending waiters, drop the
handler and waiter registries.  Idempotent by the early return. -/
def SessionModel.close (s : SessionModel) : SessionModel :=
  if s.closed then s
  else { s with closed := true, handlers := [], waiters := [] }

/-- The dispatch loop of `Session.emit` (session.py, lines 426-436): each
snapshotted handler runs in turn; successful outcomes are appended to
`results`, failures are wrapped in an `EventHandlerError` and appended to
`errors`.  Handler behaviour is supplied as a function from callback
identity to outcome. -/
def emitLoop (event : String) (behavior : Nat → Except String Value) :
    List HandlerRecord → List Value × List EventHandlerError
  | [] => ([], [])
  | r :: rest =>
    let tail := emitLoop event behavior rest
    match behavior r.callback with
    | Except.ok v => (v :: tail.1, tail.2)
    | Except.error e =>
      (tail.1, { event := event, callback := r.callback, original := e } :: tail.2)

/-- Embedding of `Session.emit` (session.py, lines 414-450): reject on a
closed session; with no handlers return `[]`; otherwise dispatch to the
handler snapshot, remove `once` handlers, and either return the results
or raise a single `ExceptionGroup` holding every handler error.  The
session state after the call is returned alongside the outcome because
`once` removal happens even when the group is raised. -/
def SessionModel.emit (s : SessionModel) (event : String)
    (behavior : Nat → Except String Value) :
    SessionModel × Except SessionExc (List Value) :=
  if s.closed then
    (s, Except.error (SessionExc.sessionClosed "Session is closed"))
  else
    let handlers := (s.handlers.lookup event).getD []
    if handlers.isEmpty then (s, Except.ok [])
    else
      let outcome := emitLoop event behavior handlers
      let toRemove := (handlers.filter (fun r => r.once)).map (fun r => r.callback)
      let s' := toRemove.foldl (fun acc c => (acc.off event (some c)).1) s
      if outcome.2.isEmpty then (s', Except.ok outcome.1)
      else (s', Except.error (SessionExc.exceptionGroup outcome.2))

/-- Embedding of the open-session check and waiter registration of
`Session.wait_for` (session.py, lines 456-467); the subsequent suspension
on the future is outside the sequential model. -/
def SessionModel.wait_for (s : SessionModel) (event : String) :
    Except SessionExc SessionModel :=
  if s.closed then Except.error (SessionExc.sessionClosed "Session is closed")
  else Except.ok { s with waiters := s.waiters ++ [event] }

/-- Embedding of `Session.__setitem__` (session.py, lines 270-273). -/
def SessionModel.setItem (s : SessionModel) (k : String) (v : Value) :
    Except SessionExc SessionModel :=
  if s.closed then Except.error (SessionExc.sessionClosed "Session is closed")
  else Except.ok { s with state := setAssoc s.state k v }

/-- Embedding of `Session.__delitem__` (session.py, lines 275-278);
deleting a missing key raises `KeyError` after the open check. -/
def SessionModel.delItem (s : SessionModel) (k : String) :
    Except SessionExc SessionModel :=
  if s.closed then Except.error (SessionExc.sessionClosed "Session is closed")
  else if (s.state.lookup k).isNone then Except.error (SessionExc.keyError k)
  else Except.ok { s with state := removeAssoc s.state k }

/-- Embedding of `Session.setdefault` (session.py, lines 283-287). -/
def SessionModel.setdefault (s : SessionModel) (k : String) (v : Value) :
    Except SessionExc (Value × SessionModel) :=
  if s.closed then Except.error (SessionExc.sessionClosed "Session is closed")
  else
    match s.state.lookup k with
    | some existing => Except.ok (existing, s)
    | none => Except.ok (v, { s with state := setAssoc s.state k v })

/-- Embedding of `Session.update` (session.py, lines 289-295) for a single
mapping argument. -/
def SessionModel.update (s : SessionModel) (m : List (String × Value)) :
    Except SessionExc SessionModel :=
  if s.closed then Except.error (SessionExc.sessionClosed "Session is closed")
  else Except.ok { s with state := m.foldl (fun st kv => setAssoc st kv.1 kv.2) s.state }

/-! ## Realtime transport choreography (`Session.initialize`,
`Session._send_session_update`, `Session._send_initial_prompt`) -/

/-- An observable transport action performed during session start-up:
accepting the user port, sending to the user port, or sending to the
upstream (openai) client. -/
inductive TransportAction where
  | userAccept
  | userSend (m : Value)
  | upstreamSend (m : Value)

/-- The `session.update` payload built by `_send_session_update`
(session.py, lines 569-574). -/
def sessionUpdateMsg (snapshot : Value) : Value :=
  Value.vdict [("type", Value.vstr "session.update"), ("session", snapshot)]

/-- A `{type: "input_text", text: "<system>...</system>"}` content element
(session.py, lines 583-589). -/
def systemContentItem (message : String) : Value :=
  Value.vdict [("type", Value.vstr "input_text"),
               ("text", Value.vstr ("<system>" ++ message ++ "</system>"))]

/-- A `{type: "input_text", text: "<questionnaire>...</questionnaire>"}`
content element (session.py, lines 590-596). -/
def questionnaireContentItem (questionnaire : String) : Value :=
  Value.vdict [("type", Value.vstr "input_text"),
               ("text", Value.vstr
                 ("<questionnaire>" ++ questionnaire ++ "</questionnaire>"))]

/-- The `conversation.item.create` payload (session.py, lines 598-605). -/
def itemCreateMsg (content : List Value) : Value :=
  Value.vdict [("type", Value.vstr "conversation.item.create"),
               ("item", Value.vdict
                 [("type", Value.vstr "message"),
                  ("role", Value.vstr "user"),
                  ("content", Value.vlist content)])]

/-- The `response.create` payload (session.py, line 607). -/
def responseCreateMsg : Value :=
  Value.vdict [("type", Value.vstr "response.create")]

/-- The content list assembled by `_send_initial_prompt` (session.py,
lines 582-596) from the rendered initial message and questionnaire. -/
def initialPromptContent (message questionnaire : Option String) : List Value :=
  (match message with
   | some m => [systemContentItem m]
   | none => []) ++
  (match questionnaire with
   | some q => [questionnaireContentItem q]
   | none => [])

/-- Embedding of `Session._send_initial_prompt` (session.py, lines
576-608) as the list of upstream sends it performs: nothing when both
renders are `None`, otherwise `conversation.item.create` followed by
`response.create`. -/
def sendInitialPromptTrace (message questionnaire : Option String) :
    List TransportAction :=
  if message.isNone && questionnaire.isNone then []
  else
    [TransportAction.upstreamSend
       (itemCreateMsg (initialPromptContent message questionnaire)),
     TransportAction.upstreamSend responseCreateMsg]

/-- The lifecycle flags consulted by `Session.initialize`. -/
structure InitSession where
  closed : Bool
  initialized : Bool
  has_user_websocket : Bool

/-- Embedding of `Session.initialize` (session.py, lines 308-352) as a
state transition plus the ordered trace of transport actions.  The
upstream connect and the `asyncio.wait_for` handshake receive are
summarised by `handshake : Option Value` (`none` models the receive
timing out); the scaffolding renders are summarised by `message` and
`questionnaire` (the results of `_render_initial_prompt` and
`_render_questionnaire`); `snapshot` is the value built by
`_build_session_snapshot`.  On timeout the source raises `SessionError`
without touching any session flag. -/
def initTransport (s : InitSession) (handshake : Option Value)
    (message questionnaire : Option String) (snapshot : Value) :
    InitSession × Except SessionExc (List TransportAction) :=
  if s.initialized then (s, Except.ok [])
  else if !s.has_user_websocket then
    (s, Except.error (SessionExc.sessionError
      "No user websocket configured for realtime session"))
  else
    match handshake with
    | none =>
      (s, Except.error (SessionExc.sessionError
        "Timed out waiting for upstream session handshake"))
    | some h =>
      ({ s with initialized := true },
       Except.ok
         ([TransportAction.userAccept,
           TransportAction.userSend h,
           TransportAction.upstreamSend (sessionUpdateMsg snapshot)]
          ++ sendInitialPromptTrace message questionnaire))

/-- Whether a transport action is a send to the upstream client. -/
def TransportAction.isUpstreamSend : TransportAction → Bool
  | TransportAction.upstreamSend _ => true
  | _ => false

/-! ## Heap model for the session snapshot (`Session._build_session_snapshot`) -/

/-- A Python value as stored in a variable or container slot: either an
immutable primitive or a reference to a heap object. -/
inductive PVal where
  | pnull
  | pbool (b : Bool)
  | pint (n : Int)
  | pstr (s : String)
  | pref (addr : Nat)
  deriving Repr, DecidableEq

/-- A mutable Python heap object: a string-keyed dict or a list. -/
inductive PObj where
  | pdict (entries : List (String × PVal))
  | plist (items : List PVal)
  deriving Repr, DecidableEq

/-- The heap: addresses to objects. -/
abbrev Store := List (Nat × PObj)

/-- The fully-resolved (alias-free) reading of a value: what an observer
sees when serialising it.  `fuel` bounds reference chasing; a dangling
reference or exhausted fuel yields `none`. -/
inductive DVal where
  | dnull
  | dbool (b : Bool)
  | dint (n : Int)
  | dstr (s : String)
  | ddict (entries : List (String × DVal))
  | dlist (items : List DVal)

/-- Resolve every value of a dict entry list through `f`, failing if any
resolution fails. -/
def deepReadEntriesWith (f : PVal → Option DVal) :
    List (String × PVal) → Option (List (String × DVal))
  | [] => some []
  | (k, v) :: rest =>
    match f v with
    | none => none
    | some d =>
      match deepReadEntriesWith f rest with
      | none => none
      | some ds => some ((k, d) :: ds)

/-- Resolve every item of a list through `f`, failing if any fails. -/
def deepReadItemsWith (f : PVal → Option DVal) :
    List PVal → Option (List DVal)
  | [] => some []
  | v :: rest =>
    match f v with
    | none => none
    | some d =>
      match deepReadItemsWith f rest with
      | none => none
      | some ds => some (d :: ds)

/-- The fully-resolved (alias-free) reading of a value: what an observer
serialising the value sees.  `fuel` bounds the reference-chasing depth;
a dangling reference or exhausted fuel yields `none`. -/
def deepRead (store : Store) : Nat → PVal → Option DVal
  | _, PVal.pnull => some DVal.dnull
  | _, PVal.pbool b => some (DVal.dbool b)
  | _, PVal.pint n => some (DVal.dint n)
  | _, PVal.pstr s => some (DVal.dstr s)
  | 0, PVal.pref _ => none
  | fuel + 1, PVal.pref a =>
    match store.lookup a with
    | none => none
    | some (PObj.pdict entries) =>
      match deepReadEntriesWith (fun v => deepRead store fuel v) entries with
      | none => none
      | some ds => some (DVal.ddict ds)
    | some (PObj.plist items) =>
      match deepReadItemsWith (fun v => deepRead store fuel v) items with
      | none => none
      | some ds => some (DVal.dlist ds)

/-- Heap update at an address (in-place mutation of one object). -/
def setStore (store : Store) (addr : Nat) (obj : PObj) : Store :=
  match store with
  | [] => []
  | (a, o) :: rest =>
    if a = addr then (addr, obj) :: rest else (a, o) :: setStore rest addr obj

/-- Python `d[k] = v` on a dict object at `addr`: rebinding a top-level key
in place. -/
def dictSetKey (store : Store) (addr : Nat) (k : String) (v : PVal) : Store :=
  match store.lookup addr with
  | some (PObj.pdict entries) =>
    setStore store addr (PObj.pdict (setAssoc entries k v))
  | _ => store

/-- Python `lst.append(v)` on a list object at `addr`. -/
def listAppend (store : Store) (addr : Nat) (v : PVal) : Store :=
  match store.lookup addr with
  | some (PObj.plist items) => setStore store addr (PObj.plist (items ++ [v]))
  | _ => store

/-- The result of building a snapshot: the grown heap and the address of
the snapshot dict. -/
structure SnapshotResult where
  store : Store
  snapAddr : Nat

/-- Embedding of `Session._build_session_snapshot` (session.py, lines
702-717) restricted to the fields the claim speaks about: `id`,
`created_at`, `updated_at`, `state`, `metadata` and the optional `llm`
entry (`config` and `tools`, built by separate helpers, are omitted).
`dict(self.state)` and `dict(self.metadata)` are top-level copies into
fresh heap objects whose slots are the same values (references included)
as the source dicts; `dict(self._llm_config)` likewise.  Fresh addresses
are `base`, `base+1`, `base+2`, `base+3`. -/
def buildSessionSnapshot (store : Store) (idStr createdAt updatedAt : String)
    (stateAddr metaAddr : Nat) (llmAddr : Option Nat) (base : Nat) :
    Option SnapshotResult :=
  match store.lookup stateAddr, store.lookup metaAddr with
  | some (PObj.pdict stateEntries), some (PObj.pdict metaEntries) =>
    let stateCopy := base
    let metaCopy := base + 1
    let store1 := store ++ [(stateCopy, PObj.pdict stateEntries),
                            (metaCopy, PObj.pdict metaEntries)]
    let baseEntries :=
      [("id", PVal.pstr idStr),
       ("created_at", PVal.pstr createdAt),
       ("updated_at", PVal.pstr updatedAt),
       ("state", PVal.pref stateCopy),
       ("metadata", PVal.pref metaCopy)]
    match llmAddr with
    | none =>
      let snapAddr := base + 2
      some { store := store1 ++ [(snapAddr, PObj.pdict baseEntries)],
             snapAddr := snapAddr }
    | some la =>
      match store.lookup la with
      | some (PObj.pdict llmEntries) =>
        let llmCopy := base + 2
        let snapAddr := base + 3
        some { store := store1 ++
                 [(llmCopy, PObj.pdict llmEntries),
                  (snapAddr, PObj.pdict
                    (baseEntries ++ [("llm", PVal.pref llmCopy)]))],
               snapAddr := snapAddr }
      | _ => none
  | _, _ => none

/-! ## Specification-side helpers used by the theorems -/

/-- The results the spec expects a dispatch to return: the outcome of each
successful handler, in handler order. -/
def successResults (behavior : Nat → Except String Value)
    (hs : List HandlerRecord) : List Value :=
  hs.filterMap (fun r => (behavior r.callback).toOption)

/-- The handler errors the spec expects a dispatch to collect: one wrapped
`EventHandlerError` per failing handler, in handler order. -/
def failureErrors (event : String) (behavior : Nat → Except String Value)
    (hs : List HandlerRecord) : List EventHandlerError :=
  hs.filterMap (fun r =>
    match behavior r.callback with
    | Except.error e =>
      some { event := event, callback := r.callback, original := e }
    | Except.ok _ => none)

/-- Register a batch of `(callback, priority, once)` triples on one event;
on an open session `register` never fails, so the error branch is inert. -/
def registerAllFrom (s : SessionModel) (event : String) :
    List (Nat × Int × Bool) → SessionModel
  | [] => s
  | (cb, p, o) :: rest =>
    match s.register event cb p o with
    | Except.ok s' => registerAllFrom s' event rest
    | Except.error _ => s

/-- The handler records the spec predicts for a registration batch starting
at insertion counter `n`: each triple in order, annotated with its
insertion index. -/
def expectedRecords (n : Nat) (regs : List (Nat × Int × Bool)) :
    List HandlerRecord :=
  (regs.enumFrom n).map (fun p =>
    { callback := p.2.1, once := p.2.2.2, priority := p.2.2.1, idx := p.1 })

/-- The handler list a session holds for an event. -/
def handlersOf (s : SessionModel) (event : String) : List HandlerRecord :=
  (s.handlers.lookup event).getD []

/-- Insertion-stability: records with equal priority appear in insertion
order. -/
def StabOrder (a b : HandlerRecord) : Prop :=
  a.priority = b.priority → a.idx < b.idx

/-! ## Concrete fixtures for witnesses and counterexamples -/

/-- A question with options `["Yes", "No"]` (spec scenario S4). -/
def yesNoQuestion : QuestionnaireQuestion :=
  { question_id := "q1", question_text := "Proceed?",
    question_options := ["Yes", "No"] }

/-- A question used for the spelling-sensitive scenario (spec S5). -/
def emailQuestion : QuestionnaireQuestion :=
  { question_id := "email", question_text := "Email address?" }

/-- A questionnaire whose only section sits on a `VISIBLE` cycle through a
`NOT` node: its condition is `NOT(VISIBLE self)`. -/
def cycleQuestionnaire : Questionnaire :=
  { sections := [{ section_id := "a", section_name := "A",
                   condition := some (Condition.cnot (Condition.visible "a")) }] }

/-- A questionnaire with a blank (whitespace-only) template and a schema. -/
def blankTemplateQuestionnaire : Questionnaire :=
  { template := some "   ", schema := some (Value.vdict [("a", Value.vint 1)]) }

/-- A trivial questionnaire with one unconditional section. -/
def simpleQuestionnaire : Questionnaire :=
  { sections := [{ section_id := "s1", section_name := "S1" }] }

/-- A closed session obtained by closing a fresh default session. -/
def closedSession : SessionModel := SessionModel.close {}

/-- A heap for the snapshot scenario: the session state dict at address 0
holds key `"x"` referencing the list `[1]` at address 1, the metadata
dict lives at address 2 and the llm config dict at address 3. -/
def snapshotStore : Store :=
  [(0, PObj.pdict [("x", PVal.pref 1)]),
   (1, PObj.plist [PVal.pint 1]),
   (2, PObj.pdict []),
   (3, PObj.pdict [("model", PVal.pstr "gpt")])]

/-! ## Theorems -/

/-- Claim C10: for every skippable question, `skip()` sets `skipped = true`
and resets the stored value to null, discarding any previously set
answer; `unskip()` only clears the skipped flag without restoring the
value; hence `skip()` followed by `unskip()` leaves the question
unanswered (value null, skipped false). -/
theorem c10_skip_unskip (q : QuestionnaireQuestion) :
    ({ q with skippable := true } : QuestionnaireQuestion).skip
      = Except.ok { q with skippable := true, value := Value.vnull, skipped := true }
    ∧ ({ q with skippable := true, value := Value.vnull, skipped := true }
        : QuestionnaireQuestion).unskip
      = { q with skippable := true, value := Value.vnull, skipped := false }
    ∧ (∀ r : QuestionnaireQuestion, r.unskip.value = r.value ∧ r.unskip.skipped = false) := by
  refine ⟨rfl, rfl, fun r => ⟨rfl, rfl⟩⟩

/-- Claim C5 (amended): if the upstream handshake does not arrive within
the receive timeout, `initialize()` fails with a session-error
(handshake timeout), but the session does not transition to CLOSED: the
exception propagates without `close()` being called, so every session
flag — `closed` included — is left exactly as it was. -/
theorem c5_handshake_timeout (c : Bool) (m q : Option String) (snap : Value) :
    initTransport { closed := c, initialized := false, has_user_websocket := true }
        none m q snap
      = ({ closed := c, initialized := false, has_user_websocket := true },
         Except.error (SessionExc.sessionError
           "Timed out waiting for upstream session handshake")) := rfl

/-- Claim C5, counterexample to the claim as stated: on a handshake
timeout the call fails with the session-error, yet `closed` remains
`false` — the session does not transition to CLOSED. -/
theorem c5_counterexample :
    (initTransport { closed := false, initialized := false, has_user_websocket := true }
        none none none Value.vnull).2
      = Except.error (SessionExc.sessionError
          "Timed out waiting for upstream session handshake")
    ∧ (initTransport { closed := false, initialized := false, has_user_websocket := true }
        none none none Value.vnull).1.closed = false := ⟨rfl, rfl⟩

/-- Claim C9 (amended): once a session is closed the closed state is
absorbing (`close` is idempotent and no operation clears the flag), and
`on`, `once`, `emit`, `wait_for` and every state mutation (`__setitem__`,
`__delitem__`, `setdefault`, `update`) fail with session-closed; `off`,
however, performs no closed check: on a closed session it returns 0
removed (the registry was cleared by `close`) and leaves the session
unchanged. -/
theorem c9_closed_absorbing (s : SessionModel) :
    (({ s with closed := false } : SessionModel).close).closed = true
    ∧ (({ s with closed := false } : SessionModel).close).close
        = ({ s with closed := false } : SessionModel).close
    ∧ (∀ e cb p, (({ s with closed := false } : SessionModel).close).on e cb p
        = Except.error (SessionExc.sessionClosed "Session is closed"))
    ∧ (∀ e cb p, (({ s with closed := false } : SessionModel).close).once e cb p
        = Except.error (SessionExc.sessionClosed "Session is closed"))
    ∧ (∀ e behavior, (({ s with closed := false } : SessionModel).close).emit e behavior
        = (({ s with closed := false } : SessionModel).close,
           Except.error (SessionExc.sessionClosed "Session is closed")))
    ∧ (∀ e, (({ s with closed := false } : SessionModel).close).wait_for e
        = Except.error (SessionExc.sessionClosed "Session is closed"))
    ∧ (∀ k v, (({ s with closed := false } : SessionModel).close).setItem k v
        = Except.error (SessionExc.sessionClosed "Session is closed"))
    ∧ (∀ k, (({ s with closed := false } : SessionModel).close).delItem k
        = Except.error (SessionExc.sessionClosed "Session is closed"))
    ∧ (∀ k v, (({ s with closed := false } : SessionModel).close).setdefault k v
        = Except.error (SessionExc.sessionClosed "Session is closed"))
    ∧ (∀ m, (({ s with closed := false } : SessionModel).close).update m
        = Except.error (SessionExc.sessionClosed "Session is closed"))
    ∧ (∀ e cb, (({ s with closed := false } : SessionModel).close).off e cb
        = (({ s with closed := false } : SessionModel).close, 0)) := by
  have hσ : ({ s with closed := false } : SessionModel).close
      = { s with closed := true, handlers := [], waiters := [] } := by
    simp [SessionModel.close]
  rw [hσ]
  refine ⟨rfl, ?_, fun e cb p => rfl, fun e cb p => rfl, fun e behavior => rfl,
    fun e => rfl, fun k v => rfl, fun k => rfl, fun k v => rfl, fun m => rfl,
    fun e cb => rfl⟩
  simp [SessionModel.close]

/-- Claim C9, counterexample to the claim as stated: `off` on a closed
session does not fail with session-closed — it returns normally with 0
handlers removed. -/
theorem c9_counterexample :
    closedSession.closed = true
    ∧ closedSession.off "tick" none = (closedSession, 0) := ⟨rfl, rfl⟩

/-- Claim C1: during `initialize()`, once the handshake message is
received the user port receives the handshake payload before any send to
upstream; the sends to upstream occur in exactly the order
`session.update`, then `conversation.item.create` (only if the rendered
content list is non-empty, with the `<system>` element before the
`<questionnaire>` element), then `response.create`; when the content list
is empty both of the latter are skipped.  The content list is empty
exactly when both the initial message and the questionnaire render to
`None`. -/
theorem c1_init_send_order (c : Bool) (h : Value) (m q : Option String)
    (snap : Value) :
    ∃ tr, (initTransport { closed := c, initialized := false,
                           has_user_websocket := true }
             (some h) m q snap).2 = Except.ok tr
      ∧ tr.filter (fun a => a.isUpstreamSend)
          = TransportAction.upstreamSend (sessionUpdateMsg snap)
            :: (if (initialPromptContent m q).isEmpty then []
                else [TransportAction.upstreamSend
                        (itemCreateMsg (initialPromptContent m q)),
                      TransportAction.upstreamSend responseCreateMsg])
      ∧ TransportAction.userSend h ∈ tr.takeWhile (fun a => !a.isUpstreamSend)
      ∧ (initialPromptContent m q = [] ↔ (m = none ∧ q = none))
      ∧ (∀ ms qs, m = some ms → q = some qs →
          initialPromptContent m q
            = [systemContentItem ms, questionnaireContentItem qs]) := by
  rcases m with _ | ms <;> rcases q with _ | qs <;>
    simp [initTransport, sendInitialPromptTrace, initialPromptContent,
      TransportAction.isUpstreamSend]

/-- Claim C1, witness: a concrete run with a handshake message, a rendered
system message and a rendered questionnaire. -/
theorem c1_init_send_order_witness :
    ∃ tr, (initTransport { closed := false, initialized := false,
                           has_user_websocket := true }
             (some (Value.vstr "hello"))
             (some "sys") (some "quest") Value.vnull).2 = Except.ok tr
      ∧ tr.filter (fun a => a.isUpstreamSend)
          = [TransportAction.upstreamSend (sessionUpdateMsg Value.vnull),
             TransportAction.upstreamSend
               (itemCreateMsg [systemContentItem "sys",
                               questionnaireContentItem "quest"]),
             TransportAction.upstreamSend responseCreateMsg]
      ∧ TransportAction.userSend (Value.vstr "hello")
          ∈ tr.takeWhile (fun a => !a.isUpstreamSend) := by
  obtain ⟨tr, h1, h2, h3, _, h5⟩ :=
    c1_init_send_order false (Value.vstr "hello") (some "sys") (some "quest")
      Value.vnull
  refine ⟨tr, h1, ?_, h3⟩
  rw [h2, h5 "sys" "quest" rfl rfl]
  simp [initialPromptContent]

/-- Claim C6 (amended): `render(state)` follows this precedence: if
`template` is a string, a blank (whitespace-only) template immediately
yields null — it does not fall through — and a non-blank template returns
the trimmed rendering (null if it trims to empty); if `template` is not
set, a set `schema` yields canonical JSON with sorted keys; otherwise
existing sections yield the JSON of `{sections: [...]}` with sorted
keys; otherwise a non-blank `fallback_prompt` yields the prompt suffixed
with Agent/Branch drawn from state; otherwise null. -/
theorem c6_render_precedence (Q : Questionnaire)
    (rt : String → List (String × Value) → Option Value → String)
    (st : List (String × Value)) :
    (∀ t, Q.template = some t → pyStrip t ≠ "" →
      Q.render rt st =
        (if pyStrip (rt t st Q.questionnaire_payload) = "" then none
         else some (pyStrip (rt t st Q.questionnaire_payload))))
    ∧ (∀ t, Q.template = some t → pyStrip t = "" → Q.render rt st = none)
    ∧ (∀ p, Q.template = none → Q.schema = some p →
        Q.render rt st = some (jsonDumpSorted p))
    ∧ (Q.template = none → Q.schema = none → Q.sections ≠ [] →
        Q.render rt st = some (jsonDumpSorted (Value.vdict
          [("sections",
            Value.vlist (Q.sections.map QuestionnaireSection.to_mapping))])))
    ∧ (Q.template = none → Q.schema = none → Q.sections = [] →
        pyStrip Q.fallback_prompt ≠ "" →
        Q.render rt st = some (pyStrip Q.fallback_prompt ++ " Agent: "
          ++ pyStr ((st.lookup "agent_name").getD (Value.vstr "our team"))
          ++ ", Branch: "
          ++ pyStr ((st.lookup "branch_name").getD (Value.vstr "our branch"))
          ++ "."))
    ∧ (Q.template = none → Q.schema = none → Q.sections = [] →
        pyStrip Q.fallback_prompt = "" → Q.render rt st = none) := by
  refine ⟨?_, ?_, ?_, ?_, ?_, ?_⟩
  · intro t ht hnb
    simp [Questionnaire.render, ht, hnb]
  · intro t ht hb
    simp [Questionnaire.render, ht, hb]
  · intro p ht hp
    simp [Questionnaire.render, Questionnaire.questionnaire_payload, ht, hp]
  · intro ht hp hs
    simp [Questionnaire.render, Questionnaire.questionnaire_payload, ht, hp, hs]
  · intro ht hp hs hf
    simp [Questionnaire.render, Questionnaire.questionnaire_payload, ht, hp, hs, hf]
  · intro ht hp hs hf
    simp [Questionnaire.render, Questionnaire.questionnaire_payload, ht, hp, hs, hf]

/-- Claim C6, witness: with no template and a schema, `render` emits the
canonical JSON of the schema. -/
theorem c6_render_precedence_witness :
    Questionnaire.render { schema := some (Value.vdict [("a", Value.vint 1)]) }
        (fun t _ _ => t) []
      = some (jsonDumpSorted (Value.vdict [("a", Value.vint 1)])) :=
  (c6_render_precedence { schema := some (Value.vdict [("a", Value.vint 1)]) }
    (fun t _ _ => t) []).2.2.1 (Value.vdict [("a", Value.vint 1)]) rfl rfl

/-- Claim C6, counterexample to the claim as stated: a blank
(whitespace-only) template does not fall through to the schema branch —
`render` returns null even though a schema is set and would serialise to
a non-null JSON string. -/
theorem c6_counterexample :
    blankTemplateQuestionnaire.render (fun t _ _ => t) [] = none
    ∧ blankTemplateQuestionnaire.schema = some (Value.vdict [("a", Value.vint 1)])
    ∧ blankTemplateQuestionnaire.render (fun t _ _ => t) []
        ≠ some (jsonDumpSorted (Value.vdict [("a", Value.vint 1)])) := by
  refine ⟨rfl, rfl, ?_⟩
  intro h
  exact Option.noConfusion (rfl.trans h)

/-- A list of values that are all single-character strings is the image of
a list of single-character strings, and the filterMap used by the
spelling-sensitive setter recovers exactly that list. -/
lemma all_singlechar_decompose (items : List Value)
    (h : items.all (fun i =>
        match i with
        | Value.vstr c => c.length == 1
        | _ => false) = true) :
    ∃ cs : List String, items = cs.map Value.vstr ∧ (∀ c ∈ cs, c.length = 1)
      ∧ items.filterMap (fun i =>
          match i with
          | Value.vstr c => some c
          | _ => none) = cs := by
  induction items with
  | nil => exact ⟨[], rfl, by simp, rfl⟩
  | cons i rest ih =>
    rw [List.all_cons, Bool.and_eq_true] at h
    obtain ⟨hi, hrest⟩ := h
    obtain ⟨cs, hcs, hlen, hfm⟩ := ih hrest
    cases i with
    | vstr c =>
      refine ⟨c :: cs, by simp [hcs], ?_, by simp [hfm]⟩
      intro x hx
      rcases List.mem_cons.mp hx with hx | hx
      · subst hx
        simpa using hi
      · exact hlen x hx
    | vnull => simp at hi
    | vbool b => simp at hi
    | vint n => simp at hi
    | vlist xs => simp at hi
    | vdict kvs => simp at hi

/-- Claim C8 (against the spec model, the feature being absent from the
source): with `spelling_sensitive=true`, `set_value` accepts exactly the
values that are sequences of single-character strings, stores their
concatenation and clears the skipped flag; a plain string — such as
`"james@test.com"` — or any other input is rejected with
invalid-argument. -/
theorem c8_spelling_sensitive (q : QuestionnaireQuestion) (v : Value) :
    ((∃ q', q.set_value_spelling_sensitive v = Except.ok q') ↔
      ∃ cs : List String, v = Value.vlist (cs.map Value.vstr)
        ∧ ∀ c ∈ cs, c.length = 1)
    ∧ (∀ cs : List String, (∀ c ∈ cs, c.length = 1) →
        q.set_value_spelling_sensitive (Value.vlist (cs.map Value.vstr))
          = Except.ok { q with value := Value.vstr (String.join cs),
                               skipped := false })
    ∧ (∀ s : String, q.set_value_spelling_sensitive (Value.vstr s)
        = Except.error "invalid-argument") := by
  have hmain : ∀ cs : List String, (∀ c ∈ cs, c.length = 1) →
      q.set_value_spelling_sensitive (Value.vlist (cs.map Value.vstr))
        = Except.ok { q with value := Value.vstr (String.join cs),
                             skipped := false } := by
    intro cs hlen
    have hall : (cs.map Value.vstr).all (fun i =>
        match i with
        | Value.vstr c => c.length == 1
        | _ => false) = true := by
      rw [List.all_eq_true]
      intro i hi
      obtain ⟨c, hc, rfl⟩ := List.mem_map.mp hi
      simpa using hlen c hc
    have hfm : (cs.map Value.vstr).filterMap (fun i =>
        match i with
        | Value.vstr c => some c
        | _ => none) = cs := by
      rw [List.filterMap_map]
      exact List.filterMap_some cs
    simp [QuestionnaireQuestion.set_value_spelling_sensitive, hall, hfm]
  refine ⟨⟨?_, ?_⟩, hmain, fun s => rfl⟩
  · rintro ⟨q', hq'⟩
    cases v with
    | vlist items =>
      by_cases hall : items.all (fun i =>
          match i with
          | Value.vstr c => c.length == 1
          | _ => false) = true
      · obtain ⟨cs, hcs, hlen, -⟩ := all_singlechar_decompose items hall
        exact ⟨cs, by rw [hcs], hlen⟩
      · rw [QuestionnaireQuestion.set_value_spelling_sensitive, if_neg hall] at hq'
        exact Except.noConfusion hq'
    | vnull => exact Except.noConfusion hq'
    | vbool b => exact Except.noConfusion hq'
    | vint n => exact Except.noConfusion hq'
    | vstr s => exact Except.noConfusion hq'
    | vdict kvs => exact Except.noConfusion hq'
  · rintro ⟨cs, rfl, hlen⟩
    exact ⟨_, hmain cs hlen⟩

/-- Claim C8, witness: spec scenario S5 — the character list for
`james@test.com` is accepted and stored as its concatenation. -/
theorem c8_spelling_sensitive_witness :
    (∀ c ∈ ["j", "a", "m", "e", "s", "@", "t", "e", "s", "t", ".", "c", "o", "m"],
      String.length c = 1)
    ∧ emailQuestion.set_value_spelling_sensitive
        (Value.vlist
          (["j", "a", "m", "e", "s", "@", "t", "e", "s", "t", ".", "c", "o", "m"].map
            Value.vstr))
      = Except.ok { emailQuestion with
          value := Value.vstr (String.join
            ["j", "a", "m", "e", "s", "@", "t", "e", "s", "t", ".", "c", "o", "m"]),
          skipped := false } :=
  ⟨by decide,
   (c8_spelling_sensitive emailQuestion Value.vnull).2.1
     ["j", "a", "m", "e", "s", "@", "t", "e", "s", "t", ".", "c", "o", "m"]
     (by decide)⟩

/-- Claim C7: for a question with non-empty options `O`, `set_value(v)`
succeeds iff either `v` is a string and some `o ∈ O` has
`casefold(o) = casefold(v)`, or `v` equals some `o ∈ O`; on success the
stored value is the canonical (original-cased) option and the skipped
flag is cleared; otherwise `set_value` fails with invalid-argument (and,
the embedding being value-passing, the question is unchanged). -/
theorem c7_set_value_options (q : QuestionnaireQuestion) (v : Value)
    (hne : q.question_options ≠ []) :
    ((∃ q', q.set_value v = Except.ok q') ↔
      ∃ o ∈ q.question_options,
        (∃ s, v = Value.vstr s ∧ casefold o = casefold s) ∨ v = Value.vstr o)
    ∧ (∀ q', q.set_value v = Except.ok q' →
        ∃ o ∈ q.question_options,
          q'.value = Value.vstr o ∧ q'.skipped = false
          ∧ ((∃ s, v = Value.vstr s ∧ casefold o = casefold s)
             ∨ v = Value.vstr o))
    ∧ ((¬ ∃ o ∈ q.question_options,
          (∃ s, v = Value.vstr s ∧ casefold o = casefold s) ∨ v = Value.vstr o) →
        q.set_value v = Except.error "invalid-argument") := by
  have hne' : q.question_options.isEmpty = false := by
    cases hopt : q.question_options with
    | nil => exact absurd hopt hne
    | cons a l => simp
  cases v with
  | vstr s =>
    cases hfind : optionLookup q.question_options s with
    | some o₀ =>
      have ho₀mem : o₀ ∈ q.question_options := List.mem_of_find?_eq_some hfind
      have hcf : casefold o₀ = casefold s := by
        have := List.find?_some hfind
        exact eq_of_beq this
      have hany : q.question_options.any
          (fun o => valueEqString (Value.vstr o₀) o) = true := by
        rw [List.any_eq_true]
        exact ⟨o₀, ho₀mem, by simp [valueEqString]⟩
      have hok : q.set_value (Value.vstr s)
          = Except.ok { q with value := Value.vstr o₀, skipped := false } := by
        simp [QuestionnaireQuestion.set_value, hne', hfind, hany]
      refine ⟨?_, ?_, ?_⟩
      · exact ⟨fun _ => ⟨o₀, ho₀mem, Or.inl ⟨s, rfl, hcf⟩⟩, fun _ => ⟨_, hok⟩⟩
      · intro q' hq'
        rw [hok] at hq'
        obtain rfl := Except.ok.inj hq'
        exact ⟨o₀, ho₀mem, rfl, rfl, Or.inl ⟨s, rfl, hcf⟩⟩
      · intro hno
        exact absurd ⟨o₀, ho₀mem, Or.inl ⟨s, rfl, hcf⟩⟩ hno
    | none =>
      have hnomatch : ∀ o ∈ q.question_options, casefold o ≠ casefold s := by
        intro o ho h
        have := List.find?_eq_none.mp hfind o ho
        simp [h] at this
      have hany : q.question_options.any
          (fun o => valueEqString (Value.vstr s) o) = false := by
        rw [Bool.eq_false_iff]
        intro h
        obtain ⟨o, ho, hso⟩ := List.any_eq_true.mp h
        have hso' : s = o := by simpa [valueEqString] using hso
        exact hnomatch o ho (by rw [hso'])
      have herr : q.set_value (Value.vstr s) = Except.error "invalid-argument" := by
        simp [QuestionnaireQuestion.set_value, hne', hfind, hany]
      have hnoex : ¬ ∃ o ∈ q.question_options,
          (∃ s', Value.vstr s = Value.vstr s' ∧ casefold o = casefold s')
          ∨ Value.vstr s = Value.vstr o := by
        rintro ⟨o, ho, ⟨s', hs', hcf⟩ | hso⟩
        · obtain rfl := Value.vstr.inj hs'
          exact hnomatch o ho hcf
        · have hso' : s = o := Value.vstr.inj hso
          exact hnomatch o ho (by rw [hso'])
      refine ⟨?_, ?_, fun _ => herr⟩
      · constructor
        · rintro ⟨q', hq'⟩
          rw [herr] at hq'
          exact Except.noConfusion hq'
        · intro h
          exact absurd h hnoex
      · intro q' hq'
        rw [herr] at hq'
        exact Except.noConfusion hq'
  | vnull =>
    have herr : q.set_value Value.vnull = Except.error "invalid-argument" := by
      simp [QuestionnaireQuestion.set_value, hne', valueEqString]
    refine ⟨⟨?_, ?_⟩, ?_, fun _ => herr⟩
    · rintro ⟨q', hq'⟩
      rw [herr] at hq'
      exact Except.noConfusion hq'
    · rintro ⟨o, ho, ⟨s, hs, -⟩ | hv⟩
      · exact Value.noConfusion hs
      · exact Value.noConfusion hv
    · intro q' hq'
      rw [herr] at hq'
      exact Except.noConfusion hq'
  | vbool b =>
    have herr : q.set_value (Value.vbool b) = Except.error "invalid-argument" := by
      simp [QuestionnaireQuestion.set_value, hne', valueEqString]
    refine ⟨⟨?_, ?_⟩, ?_, fun _ => herr⟩
    · rintro ⟨q', hq'⟩
      rw [herr] at hq'
      exact Except.noConfusion hq'
    · rintro ⟨o, ho, ⟨s, hs, -⟩ | hv⟩
      · exact Value.noConfusion hs
      · exact Value.noConfusion hv
    · intro q' hq'
      rw [herr] at hq'
      exact Except.noConfusion hq'
  | vint n =>
    have herr : q.set_value (Value.vint n) = Except.error "invalid-argument" := by
      simp [QuestionnaireQuestion.set_value, hne', valueEqString]
    refine ⟨⟨?_, ?_⟩, ?_, fun _ => herr⟩
    · rintro ⟨q', hq'⟩
      rw [herr] at hq'
      exact Except.noConfusion hq'
    · rintro ⟨o, ho, ⟨s, hs, -⟩ | hv⟩
      · exact Value.noConfusion hs
      · exact Value.noConfusion hv
    · intro q' hq'
      rw [herr] at hq'
      exact Except.noConfusion hq'
  | vlist xs =>
    have herr : q.set_value (Value.vlist xs) = Except.error "invalid-argument" := by
      simp [QuestionnaireQuestion.set_value, hne', valueEqString]
    refine ⟨⟨?_, ?_⟩, ?_, fun _ => herr⟩
    · rintro ⟨q', hq'⟩
      rw [herr] at hq'
      exact Except.noConfusion hq'
    · rintro ⟨o, ho, ⟨s, hs, -⟩ | hv⟩
      · exact Value.noConfusion hs
      · exact Value.noConfusion hv
    · intro q' hq'
      rw [herr] at hq'
      exact Except.noConfusion hq'
  | vdict kvs =>
    have herr : q.set_value (Value.vdict kvs) = Except.error "invalid-argument" := by
      simp [QuestionnaireQuestion.set_value, hne', valueEqString]
    refine ⟨⟨?_, ?_⟩, ?_, fun _ => herr⟩
    · rintro ⟨q', hq'⟩
      rw [herr] at hq'
      exact Except.noConfusion hq'
    · rintro ⟨o, ho, ⟨s, hs, -⟩ | hv⟩
      · exact Value.noConfusion hs
      · exact Value.noConfusion hv
    · intro q' hq'
      rw [herr] at hq'
      exact Except.noConfusion hq'

/-- Claim C7, witness: spec scenario S4 — with options `["Yes","No"]`,
`set_value("YES")` succeeds (storing the canonical `"Yes"`) and
`set_value("maybe")` fails with invalid-argument. -/
theorem c7_set_value_options_witness :
    yesNoQuestion.question_options ≠ []
    ∧ (∃ q', yesNoQuestion.set_value (Value.vstr "YES") = Except.ok q')
    ∧ yesNoQuestion.set_value (Value.vstr "maybe")
        = Except.error "invalid-argument" := by
  have hne : yesNoQuestion.question_options ≠ [] := by decide
  refine ⟨hne, ?_, ?_⟩
  · exact (c7_set_value_options yesNoQuestion (Value.vstr "YES") hne).1.mpr
      ⟨"Yes", by decide, Or.inl ⟨"YES", rfl, by decide⟩⟩
  · refine (c7_set_value_options yesNoQuestion (Value.vstr "maybe") hne).2.2 ?_
    rintro ⟨o, ho, ⟨s, hs, hcf⟩ | hv⟩
    · obtain rfl := Value.vstr.inj hs
      have ho' : o = "Yes" ∨ o = "No" := by simpa [yesNoQuestion] using ho
      rcases ho' with rfl | rfl
      · exact absurd hcf (by decide)
      · exact absurd hcf (by decide)
    · have hv' : "maybe" = o := Value.vstr.inj hv
      have ho' : o = "Yes" ∨ o = "No" := by simpa [yesNoQuestion] using ho
      rcases ho' with rfl | rfl
      · exact absurd hv' (by decide)
      · exact absurd hv' (by decide)

/-- Counting argument behind cycle-breaking: an in-progress stack of
distinct section ids, all drawn from the questionnaire, that is about to
grow by a fresh id is strictly shorter than the section list. -/
lemma stack_lt_sections (Q : Questionnaire) (stack : List String)
    (s : QuestionnaireSection) (hnd : stack.Nodup)
    (hsub : ∀ x ∈ stack, x ∈ Q.sections.map QuestionnaireSection.section_id)
    (hmem : s ∈ Q.sections) (hin : s.section_id ∉ stack) :
    stack.length < Q.sections.length := by
  classical
  have hsid : s.section_id ∈ Q.sections.map QuestionnaireSection.section_id :=
    List.mem_map_of_mem _ hmem
  have hsubT : stack.toFinset
      ⊆ (Q.sections.map QuestionnaireSection.section_id).toFinset := by
    intro x hx
    exact List.mem_toFinset.mpr (hsub x (List.mem_toFinset.mp hx))
  have hinsert : insert s.section_id stack.toFinset
      ⊆ (Q.sections.map QuestionnaireSection.section_id).toFinset := by
    intro x hx
    rcases Finset.mem_insert.mp hx with rfl | hx
    · exact List.mem_toFinset.mpr hsid
    · exact hsubT hx
  have hcard1 : (insert s.section_id stack.toFinset).card
      = stack.toFinset.card + 1 :=
    Finset.card_insert_of_not_mem (fun h => hin (List.mem_toFinset.mp h))
  have hcard2 : stack.toFinset.card = stack.length :=
    List.toFinset_card_of_nodup hnd
  have hcard3 : (insert s.section_id stack.toFinset).card
      ≤ (Q.sections.map QuestionnaireSection.section_id).toFinset.card :=
    Finset.card_le_card hinsert
  have hcard4 : (Q.sections.map QuestionnaireSection.section_id).toFinset.card
      ≤ (Q.sections.map QuestionnaireSection.section_id).length :=
    List.toFinset_card_le _
  have hlen : (Q.sections.map QuestionnaireSection.section_id).length
      = Q.sections.length := List.length_map _ _
  omega

mutual

/-- If the resolver callback never exhausts fuel on sections of the
questionnaire, neither does condition evaluation. -/
theorem evalConditionWith_isSome (Q : Questionnaire)
    (resolver : SectionResolver)
    (hres : ∀ cache' sec, sec ∈ Q.sections →
      (resolver cache' sec).isSome = true) :
    ∀ (cache : VisCache) (c : Condition),
      (evalConditionWith Q resolver cache c).isSome = true
  | cache, Condition.cand cs => by
    rw [evalConditionWith]
    have hrec := evalConditionListWith_isSome Q resolver hres cache cs
    obtain ⟨r, hr⟩ := Option.isSome_iff_exists.mp hrec
    cases r with
    | error e => simp [hr]
    | ok p => simp [hr]
  | cache, Condition.cor cs => by
    rw [evalConditionWith]
    have hrec := evalConditionListWith_isSome Q resolver hres cache cs
    obtain ⟨r, hr⟩ := Option.isSome_iff_exists.mp hrec
    cases r with
    | error e => simp [hr]
    | ok p => simp [hr]
  | cache, Condition.cnot c' => by
    rw [evalConditionWith]
    have hrec := evalConditionWith_isSome Q resolver hres cache c'
    obtain ⟨r, hr⟩ := Option.isSome_iff_exists.mp hrec
    cases r with
    | error e => simp [hr]
    | ok p => simp [hr]
  | cache, Condition.visible sid => by
    rw [evalConditionWith]
    cases hga : Q.get_section_by_id sid with
    | none => simp
    | some sec =>
      have hmem : sec ∈ Q.sections := List.mem_of_find?_eq_some hga
      simpa using hres cache sec hmem
  | cache, Condition.completed sid => by
    rw [evalConditionWith]
    cases hga : Q.get_section_by_id sid with
    | none => simp
    | some sec => simp
  | cache, Condition.always b => by
    rw [evalConditionWith]
    simp

/-- Companion statement for condition lists. -/
theorem evalConditionListWith_isSome (Q : Questionnaire)
    (resolver : SectionResolver)
    (hres : ∀ cache' sec, sec ∈ Q.sections →
      (resolver cache' sec).isSome = true) :
    ∀ (cache : VisCache) (cs : List Condition),
      (evalConditionListWith Q resolver cache cs).isSome = true
  | cache, [] => by
    rw [evalConditionListWith]
    simp
  | cache, c :: rest => by
    rw [evalConditionListWith]
    have hrec := evalConditionWith_isSome Q resolver hres cache c
    obtain ⟨r, hr⟩ := Option.isSome_iff_exists.mp hrec
    cases r with
    | error e => simp [hr]
    | ok p =>
      have hrec2 := evalConditionListWith_isSome Q resolver hres p.2 rest
      obtain ⟨r2, hr2⟩ := Option.isSome_iff_exists.mp hrec2
      cases r2 with
      | error e => simp [hr, hr2]
      | ok p2 => simp [hr, hr2]

end

/-- With fuel at least the number of sections not yet on the in-progress
stack, `resolveSection` never exhausts its fuel: the source recursion is
bounded by the number of sections. -/
theorem resolveSection_isSome (Q : Questionnaire) :
    ∀ (fuel : Nat) (cache : VisCache) (stack : List String)
      (s : QuestionnaireSection),
      stack.Nodup →
      (∀ x ∈ stack, x ∈ Q.sections.map QuestionnaireSection.section_id) →
      s ∈ Q.sections →
      Q.sections.length - stack.length ≤ fuel →
      (resolveSection Q fuel cache stack s).isSome = true := by
  intro fuel
  induction fuel with
  | zero =>
    intro cache stack s hnd hsub hmem hfuel
    rw [resolveSection]
    cases hc : cache.lookup s.section_id with
    | some b => simp
    | none =>
      by_cases hin : s.section_id ∈ stack
      · simp [hin]
      · have hlt : stack.length < Q.sections.length :=
          stack_lt_sections Q stack s hnd hsub hmem hin
        omega
  | succ fuel' ih =>
    intro cache stack s hnd hsub hmem hfuel
    rw [resolveSection]
    cases hc : cache.lookup s.section_id with
    | some b => simp
    | none =>
      by_cases hin : s.section_id ∈ stack
      · simp [hin]
      · simp only [hin, ite_false, if_false]
        cases hcond : s.condition with
        | none => simp
        | some c =>
          have hlt : stack.length < Q.sections.length :=
            stack_lt_sections Q stack s hnd hsub hmem hin
          have hres : ∀ (cache' : VisCache) (sec : QuestionnaireSection),
              sec ∈ Q.sections →
              (resolveSection Q fuel' cache' (s.section_id :: stack) sec).isSome
                = true := by
            intro cache' sec hsec
            refine ih cache' (s.section_id :: stack) sec
              (List.nodup_cons.mpr ⟨hin, hnd⟩) ?_ hsec ?_
            · intro x hx
              rcases List.mem_cons.mp hx with rfl | hx
              · exact List.mem_map_of_mem _ hmem
              · exact hsub x hx
            · simp only [List.length_cons]
              omega
          have hrec := evalConditionWith_isSome Q _ hres cache c
          obtain ⟨r, hr⟩ := Option.isSome_iff_exists.mp hrec
          cases r with
          | error e => simp [hr]
          | ok p => simp [hr]

/-- The visibility loop never exhausts fuel when every listed section
belongs to the questionnaire and the fuel covers the section count. -/
theorem visibleLoop_isSome (Q : Questionnaire) (fuel : Nat)
    (hfuel : Q.sections.length ≤ fuel) :
    ∀ (secs : List QuestionnaireSection) (cache : VisCache),
      (∀ s ∈ secs, s ∈ Q.sections) →
      (visibleLoop Q fuel cache secs).isSome = true := by
  intro secs
  induction secs with
  | nil => intro cache _; rw [visibleLoop]; simp
  | cons s rest ih =>
    intro cache hmem
    rw [visibleLoop]
    have hs : s ∈ Q.sections := hmem s (List.mem_cons_self s rest)
    have h1 := resolveSection_isSome Q fuel cache [] s List.nodup_nil
      (by intro x hx; exact absurd hx (List.not_mem_nil x)) hs (by simpa using hfuel)
    obtain ⟨r, hr⟩ := Option.isSome_iff_exists.mp h1
    cases r with
    | error e => simp [hr]
    | ok p =>
      have h2 := ih p.2 (fun x hx => hmem x (List.mem_cons_of_mem s hx))
      obtain ⟨r2, hr2⟩ := Option.isSome_iff_exists.mp h2
      cases r2 with
      | error e => simp [hr, hr2]
      | ok p2 => simp [hr, hr2]

/-- Claim C3 (amended): for every questionnaire — cyclic `VISIBLE`
references included — `get_visible_sections()` terminates: the
depth-first evaluation re-enters no section, so any fuel covering the
section count is never exhausted.  A section whose evaluation is
re-entered has the inner call return `false`, but the section itself is
not necessarily excluded from the visible list: its condition may map
that `false` back to `true` (for example through a `NOT` node, see the
counterexample). -/
theorem c3_cycle_termination (Q : Questionnaire) (fuel : Nat)
    (hfuel : Q.sections.length ≤ fuel) :
    (Q.get_visible_sections fuel).isSome = true := by
  rw [Questionnaire.get_visible_sections]
  have h := visibleLoop_isSome Q fuel hfuel Q.sections [] (fun s hs => hs)
  obtain ⟨r, hr⟩ := Option.isSome_iff_exists.mp h
  cases r with
  | error e => simp [hr]
  | ok p => simp [hr]

/-- Claim C3, witness: a one-section questionnaire evaluated with fuel 1. -/
theorem c3_cycle_termination_witness :
    (simpleQuestionnaire.get_visible_sections 1).isSome = true :=
  c3_cycle_termination simpleQuestionnaire 1 (by decide)

/-- Claim C3, counterexample to the claim as stated: the sole section of
`cycleQuestionnaire` lies on a `VISIBLE` cycle through a `NOT` node (its
condition is `NOT(VISIBLE self)`), yet `get_visible_sections` returns it
as visible: the re-entered inner call yields `false` and the `NOT` flips
it to `true`, so the section on the cycle is not excluded. -/
theorem c3_counterexample :
    (cycleQuestionnaire.get_visible_sections 2).map
        (fun r => r.map (fun vis => vis.map QuestionnaireSection.section_id))
      = some (Except.ok ["a"]) := rfl

/-- A successful association lookup names a key present in the list. -/
lemma store_lookup_mem : ∀ {l : Store} {k : Nat} {o : PObj},
    l.lookup k = some o → ∃ p ∈ l, p.1 = k := by
  intro l
  induction l with
  | nil => intro k o h; simp [List.lookup] at h
  | cons p rest ih =>
    intro k o h
    obtain ⟨a, b⟩ := p
    by_cases hk : k = a
    · exact ⟨(a, b), List.mem_cons_self _ _, hk.symm⟩
    · simp only [List.lookup, beq_false_of_ne hk] at h
      obtain ⟨p', hp', hk'⟩ := ih h
      exact ⟨p', List.mem_cons_of_mem _ hp', hk'⟩

/-- Lookup ignores an appended suffix when the key resolves in the prefix. -/
lemma store_lookup_append_left : ∀ {l₁ : Store} (l₂ : Store) {k : Nat}
    {o : PObj}, l₁.lookup k = some o → (l₁ ++ l₂).lookup k = some o := by
  intro l₁
  induction l₁ with
  | nil => intro l₂ k o h; simp [List.lookup] at h
  | cons p rest ih =>
    intro l₂ k o h
    obtain ⟨a, b⟩ := p
    by_cases hk : k = a
    · subst hk
      simp [List.lookup] at h ⊢
      exact h
    · simp only [List.cons_append, List.lookup, beq_false_of_ne hk] at h ⊢
      exact ih l₂ h

/-- Lookup skips a prefix containing no occurrence of the key. -/
lemma store_lookup_append_right : ∀ {l₁ : Store} (l₂ : Store) {k : Nat},
    (∀ p ∈ l₁, p.1 ≠ k) → (l₁ ++ l₂).lookup k = l₂.lookup k := by
  intro l₁
  induction l₁ with
  | nil => intro l₂ k _; rfl
  | cons p rest ih =>
    intro l₂ k hne
    obtain ⟨a, b⟩ := p
    have hka : k ≠ a := fun h =>
      hne (a, b) (List.mem_cons_self _ _) h.symm
    simp only [List.cons_append, List.lookup, beq_false_of_ne hka]
    exact ih l₂ (fun p hp => hne p (List.mem_cons_of_mem _ hp))

/-- `setStore` leaves every other address untouched. -/
lemma store_lookup_setStore_ne : ∀ {l : Store} {addr k : Nat} {obj : PObj},
    k ≠ addr → (setStore l addr obj).lookup k = l.lookup k := by
  intro l
  induction l with
  | nil => intro addr k obj _; rfl
  | cons p rest ih =>
    intro addr k obj hk
    obtain ⟨a, b⟩ := p
    rw [setStore]
    by_cases ha : a = addr
    · subst ha
      simp only [if_pos rfl, List.lookup, beq_false_of_ne hk]
    · simp only [if_neg ha, List.lookup]
      by_cases hka : k = a
      · simp [hka]
      · simp only [beq_false_of_ne hka]
        exact ih hk

/-- `dictSetKey` (a top-level rebinding in one dict) leaves every other
address untouched. -/
lemma store_lookup_dictSetKey_ne {l : Store} {addr k' : Nat} {k : String}
    {v : PVal} (hk : k' ≠ addr) :
    (dictSetKey l addr k v).lookup k' = l.lookup k' := by
  rw [dictSetKey]
  cases h : l.lookup addr with
  | none => rfl
  | some obj =>
    cases obj with
    | pdict entries => exact store_lookup_setStore_ne hk
    | plist items => rfl

/-- Claim C4 (amended): the snapshot built for `session.update` contains
top-level (shallow) copies of `state` and `metadata` and, when the llm
config is present, an `llm` entry equal to the input llm config: each
copy is a fresh dict object holding the same top-level entries as its
source at build time.  Rebinding or adding a top-level key of the live
state after the snapshot is built leaves the snapshot and its state copy
unchanged; the copies are shallow, so nested mutable values remain
shared with the live state (see the counterexample). -/
theorem c4_snapshot_shallow (store : Store) (idStr cAt uAt : String)
    (stateAddr metaAddr la base : Nat)
    (stEntries mEntries llmEntries : List (String × PVal))
    (hstate : store.lookup stateAddr = some (PObj.pdict stEntries))
    (hmeta : store.lookup metaAddr = some (PObj.pdict mEntries))
    (hllm : store.lookup la = some (PObj.pdict llmEntries))
    (hfresh : ∀ p ∈ store, p.1 < base) :
    ∃ r, buildSessionSnapshot store idStr cAt uAt stateAddr metaAddr
          (some la) base = some r
      ∧ r.snapAddr = base + 3
      ∧ r.store.lookup (base + 3) = some (PObj.pdict
          [("id", PVal.pstr idStr), ("created_at", PVal.pstr cAt),
           ("updated_at", PVal.pstr uAt), ("state", PVal.pref base),
           ("metadata", PVal.pref (base + 1)), ("llm", PVal.pref (base + 2))])
      ∧ r.store.lookup base = some (PObj.pdict stEntries)
      ∧ r.store.lookup (base + 1) = some (PObj.pdict mEntries)
      ∧ r.store.lookup (base + 2) = some (PObj.pdict llmEntries)
      ∧ base ≠ stateAddr
      ∧ (∀ k v, (dictSetKey r.store stateAddr k v).lookup base
            = some (PObj.pdict stEntries)
          ∧ (dictSetKey r.store stateAddr k v).lookup (base + 3)
            = r.store.lookup (base + 3)
          ∧ (dictSetKey r.store stateAddr k v).lookup (base + 1)
            = some (PObj.pdict mEntries)) := by
  have hstatelt : stateAddr < base := by
    obtain ⟨p, hp, hpk⟩ := store_lookup_mem hstate
    have := hfresh p hp
    omega
  have hfresh' : ∀ n : Nat, base ≤ n → ∀ p ∈ store, p.1 ≠ n := by
    intro n hn p hp h
    have := hfresh p hp
    omega
  have hbuild : buildSessionSnapshot store idStr cAt uAt stateAddr metaAddr
      (some la) base
      = some { store := store ++
                 [(base, PObj.pdict stEntries),
                  (base + 1, PObj.pdict mEntries),
                  (base + 2, PObj.pdict llmEntries),
                  (base + 3, PObj.pdict
                    [("id", PVal.pstr idStr), ("created_at", PVal.pstr cAt),
                     ("updated_at", PVal.pstr uAt), ("state", PVal.pref base),
                     ("metadata", PVal.pref (base + 1)),
                     ("llm", PVal.pref (base + 2))])],
               snapAddr := base + 3 } := by
    rw [buildSessionSnapshot, hstate, hmeta]
    simp only [hllm]
    simp [List.append_assoc]
  have hlk : ∀ (n : Nat) (o : PObj), base ≤ n →
      ([(base, PObj.pdict stEntries),
        (base + 1, PObj.pdict mEntries),
        (base + 2, PObj.pdict llmEntries),
        (base + 3, PObj.pdict
          [("id", PVal.pstr idStr), ("created_at", PVal.pstr cAt),
           ("updated_at", PVal.pstr uAt), ("state", PVal.pref base),
           ("metadata", PVal.pref (base + 1)),
           ("llm", PVal.pref (base + 2))])] : Store).lookup n = some o →
      (store ++
        [(base, PObj.pdict stEntries),
         (base + 1, PObj.pdict mEntries),
         (base + 2, PObj.pdict llmEntries),
         (base + 3, PObj.pdict
           [("id", PVal.pstr idStr), ("created_at", PVal.pstr cAt),
            ("updated_at", PVal.pstr uAt), ("state", PVal.pref base),
            ("metadata", PVal.pref (base + 1)),
            ("llm", PVal.pref (base + 2))])]).lookup n = some o := by
    intro n o hn hsuffix
    rw [store_lookup_append_right _ (hfresh' n hn)]
    exact hsuffix
  have h0 : (base == base) = true := beq_self_eq_true base
  have h1 : (base + 1 == base) = false := beq_false_of_ne (by omega)
  have h2 : (base + 2 == base) = false := beq_false_of_ne (by omega)
  have h2' : (base + 2 == base + 1) = false := beq_false_of_ne (by omega)
  have h3 : (base + 3 == base) = false := beq_false_of_ne (by omega)
  have h3' : (base + 3 == base + 1) = false := beq_false_of_ne (by omega)
  have h3'' : (base + 3 == base + 2) = false := beq_false_of_ne (by omega)
  have hlkstate := hlk base (PObj.pdict stEntries) (Nat.le_refl base)
    (by simp [List.lookup, h0])
  have hlkmeta := hlk (base + 1) (PObj.pdict mEntries) (by omega)
    (by simp [List.lookup, h1, beq_self_eq_true])
  have hlkllm := hlk (base + 2) (PObj.pdict llmEntries) (by omega)
    (by simp [List.lookup, h2, h2', beq_self_eq_true])
  have hlksnap := hlk (base + 3)
    (PObj.pdict
      [("id", PVal.pstr idStr), ("created_at", PVal.pstr cAt),
       ("updated_at", PVal.pstr uAt), ("state", PVal.pref base),
       ("metadata", PVal.pref (base + 1)), ("llm", PVal.pref (base + 2))])
    (by omega)
    (by simp [List.lookup, h3, h3', h3'', beq_self_eq_true])
  refine ⟨_, hbuild, rfl, hlksnap, hlkstate, hlkmeta, hlkllm, by omega, ?_⟩
  intro k v
  refine ⟨?_, ?_, ?_⟩
  · rw [store_lookup_dictSetKey_ne (by omega : base ≠ stateAddr)]
    exact hlkstate
  · rw [store_lookup_dictSetKey_ne (by omega : base + 3 ≠ stateAddr)]
  · rw [store_lookup_dictSetKey_ne (by omega : base + 1 ≠ stateAddr)]
    exact hlkmeta

/-- Claim C4, witness: the shallow-copy theorem applied to the concrete
heap `snapshotStore`. -/
theorem c4_snapshot_shallow_witness :
    ∃ r, buildSessionSnapshot snapshotStore "sid" "c" "u" 0 2 (some 3) 4
        = some r
      ∧ r.store.lookup 4 = some (PObj.pdict [("x", PVal.pref 1)])
      ∧ r.store.lookup 6 = some (PObj.pdict [("model", PVal.pstr "gpt")])
      ∧ (∀ k v, (dictSetKey r.store 0 k v).lookup 7 = r.store.lookup 7) := by
  obtain ⟨r, h1, h2, h3, h4, h5, h6, h7, h8⟩ :=
    c4_snapshot_shallow snapshotStore "sid" "c" "u" 0 2 3 4
      [("x", PVal.pref 1)] [] [("model", PVal.pstr "gpt")]
      rfl rfl rfl (by decide)
  exact ⟨r, h1, h4, h6, fun k v => (h8 k v).2.1⟩

/-- Claim C4, counterexample to the claim as stated: the snapshot's state
is `dict(self.state)` — a shallow copy — so mutating a nested mutable
value (appending to the list shared between the live state and the
snapshot) changes what an observer reads through the already-built
snapshot. -/
theorem c4_counterexample :
    ∃ r, buildSessionSnapshot snapshotStore "sid" "c" "u" 0 2 (some 3) 4
        = some r
      ∧ deepRead r.store 10 (PVal.pref r.snapAddr)
          = some (DVal.ddict
              [("id", DVal.dstr "sid"), ("created_at", DVal.dstr "c"),
               ("updated_at", DVal.dstr "u"),
               ("state", DVal.ddict [("x", DVal.dlist [DVal.dint 1])]),
               ("metadata", DVal.ddict []),
               ("llm", DVal.ddict [("model", DVal.dstr "gpt")])])
      ∧ deepRead (listAppend r.store 1 (PVal.pint 2)) 10 (PVal.pref r.snapAddr)
          = some (DVal.ddict
              [("id", DVal.dstr "sid"), ("created_at", DVal.dstr "c"),
               ("updated_at", DVal.dstr "u"),
               ("state", DVal.ddict
                 [("x", DVal.dlist [DVal.dint 1, DVal.dint 2])]),
               ("metadata", DVal.ddict []),
               ("llm", DVal.ddict [("model", DVal.dstr "gpt")])])
      ∧ (DVal.ddict
            [("id", DVal.dstr "sid"), ("created_at", DVal.dstr "c"),
             ("updated_at", DVal.dstr "u"),
             ("state", DVal.ddict [("x", DVal.dlist [DVal.dint 1])]),
             ("metadata", DVal.ddict []),
             ("llm", DVal.ddict [("model", DVal.dstr "gpt")])]
          ≠ DVal.ddict
              [("id", DVal.dstr "sid"), ("created_at", DVal.dstr "c"),
               ("updated_at", DVal.dstr "u"),
               ("state", DVal.ddict
                 [("x", DVal.dlist [DVal.dint 1, DVal.dint 2])]),
               ("metadata", DVal.ddict []),
               ("llm", DVal.ddict [("model", DVal.dstr "gpt")])]) := by
  refine ⟨_, rfl, rfl, rfl, ?_⟩
  simp

instance : IsTotal HandlerRecord priorityGE :=
  ⟨fun a b => le_total b.priority a.priority⟩

instance : IsTrans HandlerRecord priorityGE :=
  ⟨fun _ _ _ hab hbc => le_trans hbc hab⟩

/-- Updating a key then looking it up yields the new value. -/
lemma lookup_setAssoc_self {β : Type} :
    ∀ (m : List (String × β)) (k : String) (v : β),
      (setAssoc m k v).lookup k = some v := by
  intro m k v
  induction m with
  | nil => simp [setAssoc, List.lookup]
  | cons p rest ih =>
    obtain ⟨a, b⟩ := p
    rw [setAssoc]
    by_cases h : a = k
    · rw [if_pos h]
      simp [List.lookup]
    · rw [if_neg h]
      simp only [List.lookup, beq_false_of_ne (fun hh => h hh.symm)]
      exact ih

/-- `orderedInsert` preserves insertion-stability when the inserted record
is stably after every tie already present. -/
lemma stab_orderedInsert (x : HandlerRecord) :
    ∀ (l : List HandlerRecord), l.Pairwise StabOrder →
      (∀ b ∈ l, StabOrder x b) →
      (l.orderedInsert priorityGE x).Pairwise StabOrder := by
  intro l
  induction l with
  | nil =>
    intro _ _
    simp [List.orderedInsert]
  | cons b t ih =>
    intro hp hx
    rw [List.orderedInsert]
    by_cases hr : priorityGE x b
    · rw [if_pos hr]
      exact List.pairwise_cons.mpr ⟨hx, hp⟩
    · rw [if_neg hr]
      obtain ⟨hbt, hpt⟩ := List.pairwise_cons.mp hp
      refine List.pairwise_cons.mpr ⟨?_, ?_⟩
      · intro y hy
        rcases (List.mem_orderedInsert priorityGE).mp hy with rfl | hy
        · intro htie
          exact absurd (le_of_eq htie) hr
        · exact hbt y hy
      · exact ih hpt (fun c hc => hx c (List.mem_cons_of_mem _ hc))

/-- `insertionSort` by priority is stable: records with equal priority keep
the relative order they had in the input. -/
lemma stab_insertionSort :
    ∀ (l : List HandlerRecord), l.Pairwise StabOrder →
      (l.insertionSort priorityGE).Pairwise StabOrder := by
  intro l
  induction l with
  | nil => intro _; simp [List.insertionSort]
  | cons a t ih =>
    intro hp
    obtain ⟨hat, hpt⟩ := List.pairwise_cons.mp hp
    rw [List.insertionSort]
    refine stab_orderedInsert a _ (ih hpt) ?_
    intro b hb
    exact hat b ((List.mem_insertionSort priorityGE).mp hb)

/-- Unfolding the loop of `emit` into the spec-side success and failure
lists. -/
lemma emitLoop_eq (event : String) (behavior : Nat → Except String Value) :
    ∀ hs : List HandlerRecord,
      emitLoop event behavior hs
        = (successResults behavior hs, failureErrors event behavior hs) := by
  intro hs
  induction hs with
  | nil => rfl
  | cons r rest ih =>
    cases hb : behavior r.callback with
    | ok v => simp [emitLoop, successResults, failureErrors, hb,
        List.filterMap_cons, Except.toOption, ih]
    | error e => simp [emitLoop, successResults, failureErrors, hb,
        List.filterMap_cons, Except.toOption, ih]

/-- Every snapshotted handler contributes exactly one entry: a result when
it succeeds, a wrapped error when it fails. -/
lemma emit_contributions (event : String)
    (behavior : Nat → Except String Value) :
    ∀ hs : List HandlerRecord,
      hs.length = (successResults behavior hs).length
        + (failureErrors event behavior hs).length := by
  intro hs
  induction hs with
  | nil => rfl
  | cons r rest ih =>
    simp only [successResults, failureErrors, List.filterMap_cons,
      Except.toOption] at ih ⊢
    cases hb : behavior r.callback with
    | ok v =>
      simp only [hb, List.length_cons]
      omega
    | error e =>
      simp only [hb, List.length_cons]
      omega

/-- The registration invariant: starting from an open session, a batch of
registrations yields handler lists that are stably-sorted permutations of
the annotated insertion sequence. -/
lemma registerAllFrom_invariant (event : String) :
    ∀ (regs : List (Nat × Int × Bool)) (s : SessionModel),
      s.closed = false →
      (∀ r ∈ handlersOf s event, r.idx < s.nextIdx) →
      (handlersOf s event).Pairwise StabOrder →
      (registerAllFrom s event regs).closed = false
      ∧ (registerAllFrom s event regs).nextIdx = s.nextIdx + regs.length
      ∧ List.Perm (handlersOf (registerAllFrom s event regs) event)
          (handlersOf s event ++ expectedRecords s.nextIdx regs)
      ∧ (handlersOf (registerAllFrom s event regs) event).Pairwise StabOrder
      ∧ (∀ r ∈ handlersOf (registerAllFrom s event regs) event,
          r.idx < (registerAllFrom s event regs).nextIdx)
      ∧ (regs ≠ [] →
          (handlersOf (registerAllFrom s event regs) event).Sorted priorityGE) := by
  intro regs
  induction regs with
  | nil =>
    intro s hclosed hidx hstab
    refine ⟨hclosed, by simp [registerAllFrom], ?_, hstab, hidx, fun h => absurd rfl h⟩
    simp [registerAllFrom, expectedRecords, List.enumFrom]
  | cons reg rest ih =>
    intro s hclosed hidx hstab
    obtain ⟨cb, p, o⟩ := reg
    have hreg : s.register event cb p o = Except.ok { s with
        handlers := setAssoc s.handlers event
          ((handlersOf s event
            ++ [({ callback := cb, once := o, priority := p,
                   idx := s.nextIdx } : HandlerRecord)]).insertionSort
            priorityGE),
        nextIdx := s.nextIdx + 1 } := by
      rw [SessionModel.register, if_neg (by rw [hclosed]; exact Bool.false_ne_true)]
      rfl
    have hstep : registerAllFrom s event ((cb, p, o) :: rest)
        = registerAllFrom { s with
            handlers := setAssoc s.handlers event
              ((handlersOf s event
                ++ [({ callback := cb, once := o, priority := p,
                       idx := s.nextIdx } : HandlerRecord)]).insertionSort
                priorityGE),
            nextIdx := s.nextIdx + 1 } event rest := by
      rw [registerAllFrom, hreg]
    set x : HandlerRecord :=
      { callback := cb, once := o, priority := p, idx := s.nextIdx } with hx
    set s' : SessionModel := { s with
        handlers := setAssoc s.handlers event
          ((handlersOf s event ++ [x]).insertionSort priorityGE),
        nextIdx := s.nextIdx + 1 } with hs'
    have hhandlers' : handlersOf s' event
        = (handlersOf s event ++ [x]).insertionSort priorityGE := by
      rw [hs']
      show ((setAssoc s.handlers event _).lookup event).getD [] = _
      rw [lookup_setAssoc_self]
      rfl
    have happstab : (handlersOf s event ++ [x]).Pairwise StabOrder := by
      rw [List.pairwise_append]
      refine ⟨hstab, List.pairwise_singleton _ _, ?_⟩
      intro a ha b hb htie
      rw [List.mem_singleton] at hb
      subst hb
      exact hidx a ha
    have hstab' : (handlersOf s' event).Pairwise StabOrder := by
      rw [hhandlers']
      exact stab_insertionSort _ happstab
    have hperm' : List.Perm (handlersOf s' event)
        (handlersOf s event ++ [x]) := by
      rw [hhandlers']
      exact List.perm_insertionSort priorityGE _
    have hidx' : ∀ r ∈ handlersOf s' event, r.idx < s'.nextIdx := by
      intro r hr
      have hr' : r ∈ handlersOf s event ++ [x] := hperm'.mem_iff.mp hr
      rw [List.mem_append] at hr'
      rcases hr' with hr' | hr'
      · have := hidx r hr'
        have hnext : s'.nextIdx = s.nextIdx + 1 := rfl
        omega
      · rw [List.mem_singleton] at hr'
        subst hr'
        show x.idx < s'.nextIdx
        rw [hx]
        exact Nat.lt_succ_self _
    have hclosed' : s'.closed = false := hclosed
    obtain ⟨hA, hB, hC, hD, hE, _⟩ := ih s' hclosed' hidx' hstab'
    rw [hstep]
    refine ⟨hA, ?_, ?_, hD, hE, ?_⟩
    · rw [hB]
      show s.nextIdx + 1 + rest.length = s.nextIdx + (rest.length + 1)
      omega
    · refine hC.trans ?_
      have hexp : expectedRecords s.nextIdx ((cb, p, o) :: rest)
          = x :: expectedRecords (s.nextIdx + 1) rest := rfl
      rw [hexp]
      have h1 : List.Perm
          (handlersOf s' event ++ expectedRecords (s.nextIdx + 1) rest)
          ((handlersOf s event ++ [x])
            ++ expectedRecords (s.nextIdx + 1) rest) :=
        hperm'.append_right _
      have hnext : s'.nextIdx = s.nextIdx + 1 := rfl
      rw [hnext]
      refine h1.trans ?_
      rw [List.append_assoc]
      exact List.Perm.refl _
    · intro _
      cases hrest : rest with
      | nil =>
        rw [show registerAllFrom s' event ([] : List (Nat × Int × Bool)) = s'
          from rfl, hhandlers']
        exact List.sorted_insertionSort priorityGE _
      | cons r2 rest2 =>
        obtain ⟨_, _, _, _, _, hF⟩ := ih s' hclosed' hidx' hstab'
        rw [hrest] at hF
        exact hF (List.cons_ne_nil _ _)

/-- Claim C2: for every `emit` on an open session, the snapshotted
handlers stand in priority-descending, insertion-stable order (the
handler list is a permutation of the registered batch, sorted by
priority descending and stable on ties) and are dispatched one at a time
in that order; if no handler raises, `emit` returns the list of their
results in that order; if any raise, the remaining handlers still run —
every handler contributes exactly one entry, a result or a wrapped error
— and `emit` fails with a single aggregate error containing exactly one
event-handler-error (wrapping event, callback and original exception)
per failing handler. -/
theorem c2_emit_dispatch (regs : List (Nat × Int × Bool)) (event : String)
    (behavior : Nat → Except String Value) :
    List.Perm (handlersOf (registerAllFrom {} event regs) event)
      (expectedRecords 0 regs)
    ∧ (handlersOf (registerAllFrom {} event regs) event).Sorted priorityGE
    ∧ (handlersOf (registerAllFrom {} event regs) event).Pairwise StabOrder
    ∧ ((registerAllFrom {} event regs).emit event behavior).2
        = (if (failureErrors event behavior
                (handlersOf (registerAllFrom {} event regs) event)).isEmpty
           then Except.ok (successResults behavior
                  (handlersOf (registerAllFrom {} event regs) event))
           else Except.error (SessionExc.exceptionGroup
                  (failureErrors event behavior
                    (handlersOf (registerAllFrom {} event regs) event))))
    ∧ (handlersOf (registerAllFrom {} event regs) event).length
        = (successResults behavior
            (handlersOf (registerAllFrom {} event regs) event)).length
          + (failureErrors event behavior
              (handlersOf (registerAllFrom {} event regs) event)).length := by
  have hbase : handlersOf ({} : SessionModel) event = [] := rfl
  obtain ⟨hA, hB, hC, hD, hE, hF⟩ :=
    registerAllFrom_invariant event regs {} rfl
      (by rw [hbase]; intro r hr; exact absurd hr (List.not_mem_nil r))
      (by rw [hbase]; exact List.Pairwise.nil)
  refine ⟨?_, ?_, hD, ?_, emit_contributions event behavior _⟩
  · rw [hbase] at hC
    simpa using hC
  · cases hregs : regs with
    | nil =>
      rw [show registerAllFrom ({} : SessionModel) event [] = {} from rfl, hbase]
      exact List.sorted_nil
    | cons r rest =>
      rw [hregs] at hF
      exact hF (List.cons_ne_nil _ _)
  · by_cases hh : (handlersOf (registerAllFrom {} event regs) event).isEmpty
    · have hnil : handlersOf (registerAllFrom {} event regs) event = [] :=
        List.isEmpty_iff.mp hh
      rw [SessionModel.emit, if_neg (by rw [hA]; exact Bool.false_ne_true)]
      rw [show ((registerAllFrom {} event regs).handlers.lookup event).getD []
        = handlersOf (registerAllFrom {} event regs) event from rfl, hnil]
      simp [successResults, failureErrors]
    · rw [SessionModel.emit, if_neg (by rw [hA]; exact Bool.false_ne_true)]
      rw [show ((registerAllFrom {} event regs).handlers.lookup event).getD []
        = handlersOf (registerAllFrom {} event regs) event from rfl]
      rw [if_neg (by rw [Bool.not_eq_true] at hh ⊢; exact hh)]
      rw [emitLoop_eq]
      by_cases hfail : (failureErrors event behavior
          (handlersOf (registerAllFrom {} event regs) event)).isEmpty
      · rw [if_pos hfail, if_pos hfail]
      · rw [if_neg hfail, if_neg hfail]

end RealtimeAgent
